import Mathlib

/-!
# `c/ch3/poisson.c`: the structured-grid Poisson driver

`main` of `poisson.c` is a straight-line sequence of calls into PETSc and into
the three routines of `structuredpoisson.h`, each checked call followed by
`CHKERRQ`.  The embedding keeps that shape: the library is a parameter (a
deterministic state machine answering calls), objects are the opaque handles
the C code passes around, and `main` threads the library state through the
calls in source order.

Statements about the order of calls hold for every library.  Statements about
values the library computes (the error norm, the grid size) are proved for
every library that keeps the contract spelled out in `VecLaws` and `GridLaws`;
what PETSc does with a stencil, with uniform coordinates, with a negative grid
size, and what `printf` writes for `%d` and `%g`, is modelled in the definitions
marked as such.
-/

namespace Poisson

/-! ## Types of `petsc.h` used by `main` -/

abbrev PetscErrorCode := Int
abbrev PetscInt := Int

/-- Real numbers of the library, taken as exact rationals: rounding is not
part of this development. -/
abbrev PetscReal := ℚ

/-- Scalars of the library (real in this program), taken as exact rationals. -/
abbrev PetscScalar := ℚ

/-- Opaque object handles (`DM`, `Mat`, `Vec`, `KSP` are pointers in C). -/
abbrev DM := Nat
abbrev Mat := Nat
abbrev Vec := Nat
abbrev KSP := Nat
abbrev PetscLogStage := Int

inductive MPI_Comm where
  | PETSC_COMM_WORLD
  | PETSC_COMM_SELF
  deriving DecidableEq, Repr

/-- Boundary types of a distributed array: no ghost nodes, ghost nodes, or a
periodic direction. -/
inductive DMBoundaryType where
  | DM_BOUNDARY_NONE
  | DM_BOUNDARY_GHOSTED
  | DM_BOUNDARY_PERIODIC
  deriving DecidableEq, Repr

inductive DMDAStencilType where
  | DMDA_STENCIL_STAR
  | DMDA_STENCIL_BOX
  deriving DecidableEq, Repr

inductive NormType where
  | NORM_1
  | NORM_2
  | NORM_FROBENIUS
  | NORM_INFINITY
  | NORM_1_AND_2
  deriving DecidableEq, Repr

/-- The constant `PETSC_DECIDE` of `petsc.h`. -/
def PETSC_DECIDE : PetscInt := -1

/-- The fields of `DMDALocalInfo` that `main` reads. -/
structure DMDALocalInfo where
  mx : PetscInt
  my : PetscInt
  deriving DecidableEq, Repr

/-- The string `help` of line 2. -/
def help : String := "Solves a structured-grid Poisson problem with DMDA and KSP.\n\n"

/-! ## Calls made by `main` -/

/-- One constructor per library routine called by `main`, with the arguments
`main` passes by value (`NULL` is `none`).  Out-pointers (`&da`, `&A`,
`&errnorm`, ...) are not arguments here: what the routine stores through them
is part of its `Resp`. -/
inductive Call where
  | PetscInitialize (args : List String) (file : Option String) (help : String)
  | DMDACreate2d (comm : MPI_Comm) (bx by_ : DMBoundaryType) (st : DMDAStencilType)
      (M N m n dof s : PetscInt) (lx ly : Option (List PetscInt))
  | DMDASetUniformCoordinates (da : DM) (xmin xmax ymin ymax zmin zmax : PetscReal)
  | DMCreateMatrix (da : DM)
  | MatSetOptionsPrefix (A : Mat) (pre : String)
  | MatSetFromOptions (A : Mat)
  | DMCreateGlobalVector (da : DM)
  | VecDuplicate (v : Vec)
  | formExact (da : DM) (uexact : Vec)
  | formRHS (da : DM) (b : Vec)
  | PetscLogStageRegister (name : String)
  | PetscLogStagePush (stage : PetscLogStage)
  | formdirichletlaplacian (da : DM) (diag : PetscReal) (A : Mat)
  | PetscLogStagePop
  | KSPCreate (comm : MPI_Comm)
  | KSPSetOperators (ksp : KSP) (Amat Pmat : Mat)
  | KSPSetFromOptions (ksp : KSP)
  | KSPSolve (ksp : KSP) (b x : Vec)
  | VecAXPY (y : Vec) (alpha : PetscScalar) (x : Vec)
  | VecNorm (x : Vec) (type : NormType)
  | DMDAGetLocalInfo (da : DM)
  | PetscPrintf (comm : MPI_Comm) (format : String) (a1 a2 : PetscInt) (a3 : PetscScalar)
  | KSPDestroy (ksp : KSP)
  | VecDestroy (v : Vec)
  | MatDestroy (A : Mat)
  | DMDestroy (da : DM)
  | PetscFinalize
  deriving DecidableEq, Repr

/-- What a call hands back: its return code and whatever it stored through its
out-pointer (a new handle, a log stage, the norm, the local info). -/
structure Resp where
  ierr : PetscErrorCode
  obj : Nat
  stage : PetscLogStage
  norm : PetscReal
  info : DMDALocalInfo
  deriving DecidableEq, Repr

/-- The library (PETSc together with `structuredpoisson.h`), as a parameter: a
deterministic machine over its own state `σ`. -/
abbrev Petsc (σ : Type) := Call → σ → Resp × σ

/-- Modelled from the spec: the macro `CHKERRQ` of `petsc.h` (not in the
sources); a nonzero code makes the enclosing function return that code at
once, a zero code lets it continue. -/
def CHKERRQ (ierr : PetscErrorCode) : Option PetscErrorCode :=
  if ierr ≠ 0 then some ierr else none

/-- The statement pair `ierr = call; CHKERRQ(ierr);` followed by the rest `k`
of the function body. -/
def chk {σ : Type} (x : Resp × σ) (k : Resp → σ → PetscErrorCode × σ) : PetscErrorCode × σ :=
  match CHKERRQ x.1.ierr with
  | some e => (e, x.2)
  | none => k x.1 x.2

/-- The statement `call;` whose result is dropped, followed by the rest `k` of
the function body. -/
def run {σ : Type} (x : Resp × σ) (k : σ → PetscErrorCode × σ) : PetscErrorCode × σ :=
  k x.2

/-- The format string of the report (lines 73-75). -/
def reportFormat : String := "on %d x %d grid:  error |u-uexact|_inf = %g\n"

/-- The function `main` of `poisson.c`, lines 18-83. -/
def main {σ : Type} (P : Petsc σ) (args : List String) (s : σ) : PetscErrorCode × σ :=
  run (P (.PetscInitialize args none help) s) fun s =>
  -- default size (9 x 9) can be changed using -da_grid_x M -da_grid_y N
  chk (P (.DMDACreate2d .PETSC_COMM_WORLD .DM_BOUNDARY_NONE .DM_BOUNDARY_NONE
        .DMDA_STENCIL_STAR (-9) (-9) PETSC_DECIDE PETSC_DECIDE 1 1 none none) s) fun r s =>
  let da : DM := r.obj
  chk (P (.DMDASetUniformCoordinates da 0 1 0 1 (-1) (-1)) s) fun _ s =>
  -- create linear system matrix A
  chk (P (.DMCreateMatrix da) s) fun r s =>
  let A : Mat := r.obj
  chk (P (.MatSetOptionsPrefix A "a_") s) fun _ s =>
  chk (P (.MatSetFromOptions A) s) fun _ s =>
  -- create right-hand-side (RHS) b, approx solution u, exact solution uexact
  chk (P (.DMCreateGlobalVector da) s) fun r s =>
  let b : Vec := r.obj
  chk (P (.VecDuplicate b) s) fun r s =>
  let u : Vec := r.obj
  chk (P (.VecDuplicate b) s) fun r s =>
  let uexact : Vec := r.obj
  -- fill known vectors
  chk (P (.formExact da uexact) s) fun _ s =>
  chk (P (.formRHS da b) s) fun _ s =>
  -- assemble linear system
  chk (P (.PetscLogStageRegister "Matrix Assembly") s) fun r s =>
  let stage : PetscLogStage := r.stage
  chk (P (.PetscLogStagePush stage) s) fun _ s =>
  chk (P (.formdirichletlaplacian da 1 A) s) fun _ s =>
  chk (P .PetscLogStagePop s) fun _ s =>
  -- create linear solver context
  chk (P (.KSPCreate .PETSC_COMM_WORLD) s) fun r s =>
  let ksp : KSP := r.obj
  chk (P (.KSPSetOperators ksp A A) s) fun _ s =>
  chk (P (.KSPSetFromOptions ksp) s) fun _ s =>
  -- solve
  chk (P (.PetscLogStageRegister "Solve") s) fun r s =>
  let stage : PetscLogStage := r.stage
  chk (P (.PetscLogStagePush stage) s) fun _ s =>
  chk (P (.KSPSolve ksp b u) s) fun _ s =>
  chk (P .PetscLogStagePop s) fun _ s =>
  -- report on grid and numerical error
  chk (P (.VecAXPY u (-1) uexact) s) fun _ s =>
  chk (P (.VecNorm u .NORM_INFINITY) s) fun r s =>
  let errnorm : PetscScalar := r.norm
  chk (P (.DMDAGetLocalInfo da) s) fun r s =>
  let info : DMDALocalInfo := r.info
  chk (P (.PetscPrintf .PETSC_COMM_WORLD reportFormat info.mx info.my errnorm) s) fun _ s =>
  run (P (.KSPDestroy ksp) s) fun s =>
  run (P (.VecDestroy u) s) fun s =>
  run (P (.VecDestroy uexact) s) fun s =>
  run (P (.VecDestroy b) s) fun s =>
  run (P (.MatDestroy A) s) fun s =>
  run (P (.DMDestroy da) s) fun s =>
  run (P .PetscFinalize s) fun s =>
  (0, s)

/-! ## Observing a run -/

/-- One library call as it happened: the call, the answer, and the library
state before and after. -/
structure Event (σ : Type) where
  call : Call
  resp : Resp
  before : σ
  after : σ

/-- The library `P` with a log of the calls it answers, the newest first. -/
def traced {σ : Type} (P : Petsc σ) : Petsc (σ × List (Event σ)) :=
  fun c w => ((P c w.1).1, ((P c w.1).2, ⟨c, (P c w.1).1, w.1, (P c w.1).2⟩ :: w.2))

/-- The calls `main` makes, in order, when run against `P` from state `s`. -/
def trace {σ : Type} (P : Petsc σ) (args : List String) (s : σ) : List (Event σ) :=
  (main (traced P) args (s, [])).2.2.reverse

/-- The value `main` returns. -/
def ret {σ : Type} (P : Petsc σ) (args : List String) (s : σ) : PetscErrorCode :=
  (main P args s).1

/-- The library state `main` leaves behind. -/
def finalState {σ : Type} (P : Petsc σ) (args : List String) (s : σ) : σ :=
  (main P args s).2

/-- Whether `main` assigns the result of the call to `ierr` and checks it with
`CHKERRQ`: every call except `PetscInitialize`, the destroy calls and
`PetscFinalize`. -/
def Call.checked : Call → Bool
  | .PetscInitialize .. => false
  | .KSPDestroy .. => false
  | .VecDestroy .. => false
  | .MatDestroy .. => false
  | .DMDestroy .. => false
  | .PetscFinalize => false
  | _ => true

/-- The calls of `main` in source order, the handles read from the answers
`r k` of the earlier calls (call `k` is entry `k`, counted from 0). -/
def script (args : List String) (r : Nat → Resp) : List Call :=
  let da : DM := (r 1).obj
  let A : Mat := (r 3).obj
  let b : Vec := (r 6).obj
  let u : Vec := (r 7).obj
  let uexact : Vec := (r 8).obj
  let ksp : KSP := (r 15).obj
  [ .PetscInitialize args none help,
    .DMDACreate2d .PETSC_COMM_WORLD .DM_BOUNDARY_NONE .DM_BOUNDARY_NONE
      .DMDA_STENCIL_STAR (-9) (-9) PETSC_DECIDE PETSC_DECIDE 1 1 none none,
    .DMDASetUniformCoordinates da 0 1 0 1 (-1) (-1),
    .DMCreateMatrix da,
    .MatSetOptionsPrefix A "a_",
    .MatSetFromOptions A,
    .DMCreateGlobalVector da,
    .VecDuplicate b,
    .VecDuplicate b,
    .formExact da uexact,
    .formRHS da b,
    .PetscLogStageRegister "Matrix Assembly",
    .PetscLogStagePush (r 11).stage,
    .formdirichletlaplacian da 1 A,
    .PetscLogStagePop,
    .KSPCreate .PETSC_COMM_WORLD,
    .KSPSetOperators ksp A A,
    .KSPSetFromOptions ksp,
    .PetscLogStageRegister "Solve",
    .PetscLogStagePush (r 18).stage,
    .KSPSolve ksp b u,
    .PetscLogStagePop,
    .VecAXPY u (-1) uexact,
    .VecNorm u .NORM_INFINITY,
    .DMDAGetLocalInfo da,
    .PetscPrintf .PETSC_COMM_WORLD reportFormat (r 24).info.mx (r 24).info.my (r 23).norm,
    .KSPDestroy ksp,
    .VecDestroy u,
    .VecDestroy uexact,
    .VecDestroy b,
    .MatDestroy A,
    .DMDestroy da,
    .PetscFinalize ]

/-- The answer of the `k`-th event of a log (a dummy beyond its end). -/
def respOf {σ : Type} (log : List (Event σ)) (k : Nat) : Resp :=
  match log[k]? with
  | some e => e.resp
  | none => ⟨0, 0, 0, 0, ⟨0, 0⟩⟩

/-- The log is an execution of `P` from state `s`: every event is `P`'s answer
to its call in the state the previous event left. -/
def IsRun {σ : Type} (P : Petsc σ) : σ → List (Event σ) → Prop
  | _, [] => True
  | s, e :: rest => e.before = s ∧ P e.call s = (e.resp, e.after) ∧ IsRun P e.after rest

/-- The state after the last event of a log that started in `s`. -/
def lastState {σ : Type} : σ → List (Event σ) → σ
  | s, [] => s
  | _, e :: rest => lastState e.after rest

/-- Every checked call of the log returned 0. -/
def AllOk {σ : Type} (log : List (Event σ)) : Prop :=
  ∀ e ∈ log, e.call.checked = true → e.resp.ierr = 0

/-- What a run of `main` looks like: `r` the value returned, `sf` the library
state left behind, `t` the calls made. -/
structure RunSpec {σ : Type} (P : Petsc σ) (args : List String) (s : σ)
    (r : PetscErrorCode) (sf : σ) (t : List (Event σ)) : Prop where
  isRun : IsRun P s t
  final : sf = lastState s t
  conforms : t.map Event.call = (script args (respOf t)).take t.length
  okPrefix : AllOk t.dropLast
  success : r = 0 → t.length = 33 ∧ AllOk t
  failure : r ≠ 0 → ∃ e, t.getLast? = some e ∧ e.call.checked = true ∧ e.resp.ierr = r

/-- What is known about the log (newest first) while stepping through `main`. -/
structure Walk {σ : Type} (P : Petsc σ) (s : σ) (w : σ × List (Event σ)) : Prop where
  isRun : IsRun P s w.2.reverse
  last : lastState s w.2.reverse = w.1
  allOk : AllOk w.2.reverse

/-! ## The routines behind the calls -/

/-- The library routines `main` calls. -/
inductive Routine where
  | PetscInitialize | DMDACreate2d | DMDASetUniformCoordinates | DMCreateMatrix
  | MatSetOptionsPrefix | MatSetFromOptions | DMCreateGlobalVector | VecDuplicate
  | formExact | formRHS | PetscLogStageRegister | PetscLogStagePush
  | formdirichletlaplacian | PetscLogStagePop | KSPCreate | KSPSetOperators
  | KSPSetFromOptions | KSPSolve | VecAXPY | VecNorm | DMDAGetLocalInfo | PetscPrintf
  | KSPDestroy | VecDestroy | MatDestroy | DMDestroy | PetscFinalize
  deriving DecidableEq, Repr

/-- The routine a call invokes. -/
def Call.routine : Call → Routine
  | .PetscInitialize .. => .PetscInitialize
  | .DMDACreate2d .. => .DMDACreate2d
  | .DMDASetUniformCoordinates .. => .DMDASetUniformCoordinates
  | .DMCreateMatrix .. => .DMCreateMatrix
  | .MatSetOptionsPrefix .. => .MatSetOptionsPrefix
  | .MatSetFromOptions .. => .MatSetFromOptions
  | .DMCreateGlobalVector .. => .DMCreateGlobalVector
  | .VecDuplicate .. => .VecDuplicate
  | .formExact .. => .formExact
  | .formRHS .. => .formRHS
  | .PetscLogStageRegister .. => .PetscLogStageRegister
  | .PetscLogStagePush .. => .PetscLogStagePush
  | .formdirichletlaplacian .. => .formdirichletlaplacian
  | .PetscLogStagePop => .PetscLogStagePop
  | .KSPCreate .. => .KSPCreate
  | .KSPSetOperators .. => .KSPSetOperators
  | .KSPSetFromOptions .. => .KSPSetFromOptions
  | .KSPSolve .. => .KSPSolve
  | .VecAXPY .. => .VecAXPY
  | .VecNorm .. => .VecNorm
  | .DMDAGetLocalInfo .. => .DMDAGetLocalInfo
  | .PetscPrintf .. => .PetscPrintf
  | .KSPDestroy .. => .KSPDestroy
  | .VecDestroy .. => .VecDestroy
  | .MatDestroy .. => .MatDestroy
  | .DMDestroy .. => .DMDestroy
  | .PetscFinalize => .PetscFinalize

/-- The routines of `script`, in order. -/
def routines : List Routine :=
  [ .PetscInitialize, .DMDACreate2d, .DMDASetUniformCoordinates, .DMCreateMatrix,
    .MatSetOptionsPrefix, .MatSetFromOptions, .DMCreateGlobalVector, .VecDuplicate,
    .VecDuplicate, .formExact, .formRHS, .PetscLogStageRegister, .PetscLogStagePush,
    .formdirichletlaplacian, .PetscLogStagePop, .KSPCreate, .KSPSetOperators,
    .KSPSetFromOptions, .PetscLogStageRegister, .PetscLogStagePush, .KSPSolve,
    .PetscLogStagePop, .VecAXPY, .VecNorm, .DMDAGetLocalInfo, .PetscPrintf,
    .KSPDestroy, .VecDestroy, .VecDestroy, .VecDestroy, .MatDestroy, .DMDestroy,
    .PetscFinalize ]

/-- The routines whose result `main` checks. -/
def Routine.checked : Routine → Bool
  | .PetscInitialize => false
  | .KSPDestroy => false
  | .VecDestroy => false
  | .MatDestroy => false
  | .DMDestroy => false
  | .PetscFinalize => false
  | _ => true

/-- The clean-up routines of lines 77-81. -/
def Routine.isCleanup : Routine → Bool
  | .KSPDestroy => true
  | .VecDestroy => true
  | .MatDestroy => true
  | .DMDestroy => true
  | .PetscFinalize => true
  | _ => false

/-- The library `P` with the codes returned by the unchecked routines replaced
through `f`; everything else it does is unchanged. -/
def overrideUnchecked {σ : Type} (f : Call → PetscErrorCode → PetscErrorCode) (P : Petsc σ) :
    Petsc σ :=
  fun c s => if c.checked = true then P c s
    else (⟨f c (P c s).1.ierr, (P c s).1.obj, (P c s).1.stage, (P c s).1.norm, (P c s).1.info⟩,
      (P c s).2)

/-- Number of log stages open after the given routines ran: pushes minus pops. -/
def stageDepth : List Routine → Int
  | [] => 0
  | .PetscLogStagePush :: rest => stageDepth rest + 1
  | .PetscLogStagePop :: rest => stageDepth rest - 1
  | _ :: rest => stageDepth rest

/-- Event number `k` of the log is the call `c`, it returned 0 and handed
back the handle `h`. -/
def ReturnedAt {σ : Type} (t : List (Event σ)) (k : Nat) (c : Call) (h : Nat) : Prop :=
  ∃ e, t[k]? = some e ∧ e.call = c ∧ e.resp.ierr = 0 ∧ e.resp.obj = h

/-- A library in which every call succeeds and hands back zeros. -/
def okPetsc : Petsc Unit := fun _ _ => (⟨0, 0, 0, 0, ⟨0, 0⟩⟩, ())

/-- The two log stages of a run are well nested: the stage registered as
"Matrix Assembly" is pushed, `formdirichletlaplacian` runs, the stage is
popped; the stage registered as "Solve" is pushed, `KSPSolve` runs, the stage
is popped; there is no other push, pop, assembly or solve; the number of open
stages is never negative and never more than 1, and it is 0 when `VecAXPY` and
`VecNorm` compute the error norm and at the end. -/
def StagesNested {σ : Type} (t : List (Event σ)) : Prop :=
  ∃ (st1 st2 : PetscLogStage) (da A ksp b u : Nat),
    (∃ e, t[11]? = some e ∧ e.call = .PetscLogStageRegister "Matrix Assembly" ∧
      e.resp.ierr = 0 ∧ e.resp.stage = st1) ∧
    (∃ e, t[18]? = some e ∧ e.call = .PetscLogStageRegister "Solve" ∧
      e.resp.ierr = 0 ∧ e.resp.stage = st2) ∧
    ((t.drop 12).take 3).map Event.call =
      [.PetscLogStagePush st1, .formdirichletlaplacian da 1 A, .PetscLogStagePop] ∧
    ((t.drop 19).take 3).map Event.call =
      [.PetscLogStagePush st2, .KSPSolve ksp b u, .PetscLogStagePop] ∧
    (∀ k e, t[k]? = some e →
      (e.call.routine = .PetscLogStagePush ↔ k = 12 ∨ k = 19) ∧
      (e.call.routine = .PetscLogStagePop ↔ k = 14 ∨ k = 21) ∧
      (e.call.routine = .formdirichletlaplacian ↔ k = 13) ∧
      (e.call.routine = .KSPSolve ↔ k = 20) ∧
      ((e.call.routine = .VecAXPY ∨ e.call.routine = .VecNorm) →
        stageDepth ((t.take k).map fun x => x.call.routine) = 0)) ∧
    (∀ n, 0 ≤ stageDepth ((t.take n).map fun x => x.call.routine) ∧
      stageDepth ((t.take n).map fun x => x.call.routine) ≤ 1) ∧
    stageDepth (t.map fun x => x.call.routine) = 0

/-- The linear system is in place when `KSPSolve(ksp,b,u)` is called after the
events `pre`: the calls of `pre` are lines 20-63 of `main` in source order,
every checked one returned 0, `da`, `A`, `b`, `u`, `uexact`, `ksp` are the
handles the creating calls returned, `formExact(da,uexact)`, `formRHS(da,b)` and
`formdirichletlaplacian(da,1.0,A)` have run on them, and `A` was given to
`KSPSetOperators` as operator and as preconditioning matrix. -/
def SystemReady {σ : Type} (args : List String) (pre : List (Event σ))
    (ksp : KSP) (b u : Vec) : Prop :=
  ∃ (da : DM) (A : Mat) (uexact : Vec) (st1 st2 : PetscLogStage),
    pre.map Event.call =
      [ .PetscInitialize args none help,
        .DMDACreate2d .PETSC_COMM_WORLD .DM_BOUNDARY_NONE .DM_BOUNDARY_NONE
          .DMDA_STENCIL_STAR (-9) (-9) PETSC_DECIDE PETSC_DECIDE 1 1 none none,
        .DMDASetUniformCoordinates da 0 1 0 1 (-1) (-1),
        .DMCreateMatrix da,
        .MatSetOptionsPrefix A "a_",
        .MatSetFromOptions A,
        .DMCreateGlobalVector da,
        .VecDuplicate b,
        .VecDuplicate b,
        .formExact da uexact,
        .formRHS da b,
        .PetscLogStageRegister "Matrix Assembly",
        .PetscLogStagePush st1,
        .formdirichletlaplacian da 1 A,
        .PetscLogStagePop,
        .KSPCreate .PETSC_COMM_WORLD,
        .KSPSetOperators ksp A A,
        .KSPSetFromOptions ksp,
        .PetscLogStageRegister "Solve",
        .PetscLogStagePush st2 ] ∧
    (∀ x ∈ pre, x.call.checked = true → x.resp.ierr = 0) ∧
    ReturnedAt pre 1 (.DMDACreate2d .PETSC_COMM_WORLD .DM_BOUNDARY_NONE .DM_BOUNDARY_NONE
      .DMDA_STENCIL_STAR (-9) (-9) PETSC_DECIDE PETSC_DECIDE 1 1 none none) da ∧
    ReturnedAt pre 3 (.DMCreateMatrix da) A ∧
    ReturnedAt pre 6 (.DMCreateGlobalVector da) b ∧
    ReturnedAt pre 7 (.VecDuplicate b) u ∧
    ReturnedAt pre 8 (.VecDuplicate b) uexact ∧
    ReturnedAt pre 15 (.KSPCreate .PETSC_COMM_WORLD) ksp

/-! ## The weak-scaling recipe (comment of lines 10-11) -/

/-- The values `for kk in 0 1 2 3` runs through. -/
def weakScalingKK : List Nat := [0, 1, 2, 3]

/-- The shell assignment `NN=$((50*(2**$kk)))`: grid points per direction. -/
def NN (kk : Nat) : Nat := 50 * 2 ^ kk

/-- The shell assignment `MM=$((2**(2*$kk)))`: number of processes. -/
def MM (kk : Nat) : Nat := 2 ^ (2 * kk)

/-- The runs of the loop: `mpiexec -n $MM ./poisson -da_grid_x $NN -da_grid_y $NN`,
as (processes, grid points in x, grid points in y). -/
def weakScalingRuns : List (Nat × Nat × Nat) :=
  weakScalingKK.map fun kk => (MM kk, NN kk, NN kk)

/-! ## The stencil of a distributed array -/

/-- The offsets `-s, ..., s`. -/
def offsets (s : PetscInt) : List Int :=
  (List.range (2 * s.toNat + 1)).map fun k => (k : Int) - s

/-- Modelled from the spec: the index offsets of a DMDA stencil of width `s`
(`DMDACreate2d` is not in the sources).  A star stencil reaches `s` nodes along
each axis, a box stencil also reaches the diagonal nodes. -/
def stencilOffsets : DMDAStencilType → PetscInt → List (Int × Int)
  | .DMDA_STENCIL_STAR, s =>
      (offsets s).map (fun k => (k, 0)) ++ ((offsets s).filter (· ≠ 0)).map (fun k => (0, k))
  | .DMDA_STENCIL_BOX, s =>
      (offsets s).flatMap fun k => (offsets s).map fun l => (k, l)

/-- Modelled from the spec: the grid index a stencil reaches at index `i` of a
direction with `m` nodes: a periodic direction wraps around, any other
boundary type has no grid node beyond the first and last one. -/
def reach (bt : DMBoundaryType) (m : PetscInt) (i : Int) : Option Int :=
  if bt = .DM_BOUNDARY_PERIODIC then some (i % m)
  else if 0 ≤ i ∧ i < m then some i else none

/-- Modelled from the spec: the grid nodes in the stencil of node `(i,j)` of an
`mx` x `my` distributed array. -/
def stencilNeighbourhood (bx by_ : DMBoundaryType) (st : DMDAStencilType) (s : PetscInt)
    (mx my : PetscInt) (i j : Int) : List (Int × Int) :=
  (stencilOffsets st s).filterMap fun d =>
    match reach bx mx (i + d.1), reach by_ my (j + d.2) with
    | some a, some b => some (a, b)
    | _, _ => none

/-! ## Uniform coordinates -/

/-- Modelled from the spec: the spacing `DMDASetUniformCoordinates` uses in a
direction with `m` nodes spread over `[lo, hi]` (the routine is not in the
sources): `(hi - lo)/(m - 1)` when the direction is not periodic, `(hi - lo)/m`
when it is.  The result is `none` when the division is by zero. -/
def uniformSpacing (bt : DMBoundaryType) (lo hi : PetscReal) (m : PetscInt) :
    Option PetscReal :=
  if bt = .DM_BOUNDARY_PERIODIC then
    if m = 0 then none else some ((hi - lo) / m)
  else
    if m - 1 = 0 then none else some ((hi - lo) / (m - 1))

/-- Modelled from the spec: the coordinate `DMDASetUniformCoordinates` gives
node `i` of the direction. -/
def uniformCoordinate (bt : DMBoundaryType) (lo hi : PetscReal) (m : PetscInt) (i : PetscInt) :
    Option PetscReal :=
  (uniformSpacing bt lo hi m).map fun h => lo + h * i

/-! ## What `PetscPrintf` writes -/

/-- The quotient `N / D` rounded to the nearest integer, a tie going to the
even neighbour. -/
def roundHalfEven (N D : Nat) : Nat :=
  if 2 * (N % D) < D then N / D
  else if D < 2 * (N % D) then N / D + 1
  else if (N / D) % 2 = 0 then N / D else N / D + 1

/-- The decimal exponent of the positive fraction `n / d`: the `e` with
`10^e <= n/d < 10^(e+1)`. -/
def decExponent (n d : Nat) : Int :=
  if d ≤ n then (((toString (n / d)).length - 1 : Nat) : Int)
  else -((((List.range ((toString d).length + 1)).find? fun k => d ≤ n * 10 ^ k).getD 0 : Nat)
    : Int)

/-- The positive fraction `n / d` rounded to six significant digits: the six
digits as a number, and the decimal exponent of the rounded value. -/
def sixDigits (n d : Nat) : Nat × Int :=
  let e := decExponent n d
  let m := if e ≤ 5 then roundHalfEven (n * 10 ^ (5 - e).toNat) d
    else roundHalfEven n (d * 10 ^ (e - 5).toNat)
  if m = 1000000 then (100000, e + 1) else (m, e)

/-- The digits without their trailing zeros. -/
def stripZeros (cs : List Char) : List Char :=
  (cs.reverse.dropWhile (· = '0')).reverse

/-- Modelled from the spec: the conversion `%g` of `printf` (C library, not in
the sources) for the fraction `num / den`: six significant digits, in
fixed notation when the decimal exponent `X` of the rounded value has
`-4 <= X < 6` and as `d.ddddde+XX` otherwise, trailing zeros and an empty
fraction dropped. -/
def fmtGFrac (num : Int) (den : Nat) : String :=
  if num = 0 then "0" else
    let mX := sixDigits num.natAbs den
    let ds := (toString mX.1).toList
    let X := mX.2
    let body : List Char :=
      if -4 ≤ X ∧ X < 6 then
        if 0 ≤ X then
          let fp := stripZeros (ds.drop (X.toNat + 1))
          if fp = [] then ds.take (X.toNat + 1) else ds.take (X.toNat + 1) ++ '.' :: fp
        else '0' :: '.' :: stripZeros (List.replicate ((-X).toNat - 1) '0' ++ ds)
      else
        let fp := stripZeros (ds.drop 1)
        let ex := (toString X.natAbs).toList
        (if fp = [] then ds.take 1 else ds.take 1 ++ '.' :: fp) ++
          'e' :: (if X < 0 then '-' else '+') :: (if ex.length < 2 then '0' :: ex else ex)
    String.mk ((if num < 0 then ['-'] else []) ++ body)

/-- Modelled from the spec: the text `%g` gives for a real number. -/
def fmtG (v : PetscReal) : String := fmtGFrac v.num v.den

/-- Modelled from the spec: what `printf` writes for a format with `%d` and
`%g` conversions (C library, not in the sources): each `%d` is replaced by
the next integer argument in decimal, each `%g` by the next real argument as
`fmtG` gives it, every other character is copied. -/
def printfChars : List Char → List Int → List PetscReal → List Char
  | [], _, _ => []
  | '%' :: 'd' :: rest, i :: is, rs => (toString i).toList ++ printfChars rest is rs
  | '%' :: 'g' :: rest, is, r :: rs => (fmtG r).toList ++ printfChars rest is rs
  | c :: rest, is, rs => c :: printfChars rest is rs

/-- The text a `printf` with the given format and arguments writes. -/
def printfText (fmt : String) (is : List Int) (rs : List PetscReal) : String :=
  String.mk (printfChars fmt.toList is rs)

/-- The text a call writes to the output of the program: `PetscPrintf` writes
its format filled in with its arguments, no other call of `main` is a print
call. -/
def Call.printed : Call → Option String
  | .PetscPrintf _ fmt a1 a2 a3 => some (printfText fmt [a1, a2] [a3])
  | _ => none

/-! ## Vectors -/

/-- The entries of `y + alpha x`. -/
def vaxpy (alpha : PetscScalar) (x y : List PetscScalar) : List PetscScalar :=
  List.zipWith (fun xi yi => yi + alpha * xi) x y

/-- The entries of `y - x`. -/
def vsub (y x : List PetscScalar) : List PetscScalar :=
  List.zipWith (fun yi xi => yi - xi) y x

/-- The infinity norm: the largest absolute value of an entry. -/
def normInf (v : List PetscScalar) : PetscReal :=
  v.foldr (fun a m => max |a| m) 0

/-- The vectors a call may write: the output argument of `formExact`,
`formRHS`, `KSPSolve` and `VecAXPY`, the vector a creating call makes, the
vector `VecDestroy` frees; nothing is promised for `PetscInitialize` and
`PetscFinalize`. -/
def Call.mayWriteVec : Call → Vec → Bool
  | .formExact _ x, v => decide (x = v)
  | .formRHS _ x, v => decide (x = v)
  | .KSPSolve _ _ x, v => decide (x = v)
  | .VecAXPY y _ _, v => decide (y = v)
  | .VecDestroy x, v => decide (x = v)
  | .DMCreateGlobalVector _, _ => true
  | .VecDuplicate _, _ => true
  | .PetscInitialize .., _ => true
  | .PetscFinalize, _ => true
  | _, _ => false

/-- The calls that make a new vector. -/
def Call.createsVec : Call → Bool
  | .DMCreateGlobalVector _ => true
  | .VecDuplicate _ => true
  | _ => false

/-- What the library is assumed to do with vectors; `vecOf st v` are the
entries of vector `v` in library state `st`, `isVec st v` says that `v` is a
vector of that state.  A call leaves alone every vector it may not write;
`VecAXPY(y,alpha,x)` replaces `y` by `y + alpha x`; `VecNorm` with
`NORM_INFINITY` returns the infinity norm; a creating call returns a handle
that was not in use, and handles stay in use until destroyed. -/
structure VecLaws {σ : Type} (P : Petsc σ) (vecOf : σ → Vec → List PetscScalar)
    (isVec : σ → Vec → Bool) : Prop where
  frame : ∀ c s v, c.mayWriteVec v = false → vecOf (P c s).2 v = vecOf s v
  axpy : ∀ y alpha x s, (P (.VecAXPY y alpha x) s).1.ierr = 0 →
    vecOf (P (.VecAXPY y alpha x) s).2 y = vaxpy alpha (vecOf s x) (vecOf s y)
  norm : ∀ x s, (P (.VecNorm x .NORM_INFINITY) s).1.ierr = 0 →
    (P (.VecNorm x .NORM_INFINITY) s).1.norm = normInf (vecOf s x)
  fresh : ∀ c s, c.createsVec = true → (P c s).1.ierr = 0 →
    isVec s (P c s).1.obj = false ∧ isVec (P c s).2 (P c s).1.obj = true
  keep : ∀ c s v, c.routine ≠ .VecDestroy → c.routine ≠ .PetscFinalize →
    isVec s v = true → isVec (P c s).2 v = true

/-- The report of a run gives the error norm: `formExact(da,uexact)` is call 9,
`KSPSolve(ksp,b,u)` call 20, `VecAXPY(u,-1.0,uexact)` call 22,
`VecNorm(u,NORM_INFINITY,&errnorm)` call 23 and `PetscPrintf` call 25; these
routines are called nowhere else, and call 25 is the only call that prints.
Its format is the string of line 74, its last argument is the number `VecNorm`
returned, and the line it writes is
"on mx x my grid:  error |u-uexact|_inf = " followed by that number in the
`%g` conversion and a newline.  That number is the infinity norm of
`u - uexact`, with `u` as `KSPSolve` left it and `uexact` as `formExact` left
it. -/
def ReportsErrorNorm {σ : Type} (vecOf : σ → Vec → List PetscScalar) (t : List (Event σ)) :
    Prop :=
  ∃ (eExact eSolve eAxpy eNorm ePrint : Event σ) (da : DM) (ksp : KSP) (b u uexact : Vec)
    (mx my : PetscInt),
    t[9]? = some eExact ∧ eExact.call = .formExact da uexact ∧
    t[20]? = some eSolve ∧ eSolve.call = .KSPSolve ksp b u ∧
    t[22]? = some eAxpy ∧ eAxpy.call = .VecAXPY u (-1) uexact ∧
    t[23]? = some eNorm ∧ eNorm.call = .VecNorm u .NORM_INFINITY ∧
    t[25]? = some ePrint ∧
    ePrint.call = .PetscPrintf .PETSC_COMM_WORLD
      "on %d x %d grid:  error |u-uexact|_inf = %g\n" mx my eNorm.resp.norm ∧
    ePrint.call.printed = some ("on " ++ toString mx ++ " x " ++ toString my ++
      " grid:  error |u-uexact|_inf = " ++ fmtG eNorm.resp.norm ++ "\n") ∧
    eNorm.resp.norm = normInf (vsub (vecOf eSolve.after u) (vecOf eExact.after uexact)) ∧
    (∀ k e, t[k]? = some e →
      (e.call.printed ≠ none ↔ k = 25) ∧
      (e.call.routine = .PetscPrintf ↔ k = 25) ∧
      (e.call.routine = .formExact ↔ k = 9) ∧
      (e.call.routine = .KSPSolve ↔ k = 20) ∧
      (e.call.routine = .VecAXPY ↔ k = 22) ∧
      (e.call.routine = .VecNorm ↔ k = 23))

/-! ## Grid size and options -/

/-- The value of a decimal digit. -/
def digitVal (c : Char) : Option Nat :=
  if c.isDigit then some (c.toNat - 48) else none

/-- The number a string of decimal digits denotes. -/
def parseNat : List Char → Option Nat
  | [] => none
  | cs => cs.foldl (fun acc c => acc.bind fun n => (digitVal c).map fun d => 10 * n + d) (some 0)

/-- The integer a string denotes, with an optional leading minus sign. -/
def parseInt (str : String) : Option Int :=
  match str.toList with
  | '-' :: cs => (parseNat cs).map fun n => -(n : Int)
  | cs => (parseNat cs).map fun n => (n : Int)

/-- Modelled from the spec: the integer the command line gives for the option
`name` (the options database of PETSc is not in the sources): the word after
the first occurrence of `name`. -/
def optionInt : List String → String → Option PetscInt
  | [], _ => none
  | [_], _ => none
  | a :: v :: rest, name => if a = name then parseInt v else optionInt (v :: rest) name

/-- Modelled from the spec: the number of grid points `DMDACreate2d` uses in a
direction for the size argument `M`: a negative `M` stands for the default
`-M`, which the command-line option (`-da_grid_x`, `-da_grid_y`) replaces when
given; a nonnegative `M` is taken as it is. -/
def gridSize (M : PetscInt) (opt : Option PetscInt) : PetscInt :=
  if M < 0 then opt.getD (-M) else M

/-- Modelled from the spec: what `PetscPrintf` writes for the `%d` conversions
of a format: each `%d` is replaced by the next integer argument in decimal
(the conversion `%g` is left as it is). -/
def printfInts : List Char → List Int → List Char
  | [], _ => []
  | '%' :: 'd' :: rest, i :: is => (toString i).toList ++ printfInts rest is
  | c :: rest, is => c :: printfInts rest is

/-- The report line for a grid of `mx` x `my` points, the error still to be
filled in for `%g`. -/
def reportLine (mx my : PetscInt) : String :=
  String.mk (printfInts reportFormat.toList [mx, my])

/-- What the library is assumed to do with options and grids; `optionsOf st`
is the command line held by the options database, `gridOf st da` the number of
grid points of `da` in each direction.  `PetscInitialize` enters the command
line in the database; `DMDACreate2d` sizes the grid by `gridSize` from its
arguments and the options `-da_grid_x`, `-da_grid_y`; `DMDAGetLocalInfo`
reports that size in `mx`, `my`; no call except `DMDACreate2d`, `DMDestroy`
and `PetscFinalize` changes the size of a grid. -/
structure GridLaws {σ : Type} (P : Petsc σ) (optionsOf : σ → List String)
    (gridOf : σ → DM → PetscInt × PetscInt) : Prop where
  init : ∀ args file hlp s, optionsOf (P (.PetscInitialize args file hlp) s).2 = args
  create : ∀ comm bx by_ st M N m n dof sw lx ly s,
    (P (.DMDACreate2d comm bx by_ st M N m n dof sw lx ly) s).1.ierr = 0 →
    gridOf (P (.DMDACreate2d comm bx by_ st M N m n dof sw lx ly) s).2
        (P (.DMDACreate2d comm bx by_ st M N m n dof sw lx ly) s).1.obj
      = (gridSize M (optionInt (optionsOf s) "-da_grid_x"),
         gridSize N (optionInt (optionsOf s) "-da_grid_y"))
  info : ∀ da s, (P (.DMDAGetLocalInfo da) s).1.ierr = 0 →
    ((P (.DMDAGetLocalInfo da) s).1.info.mx, (P (.DMDAGetLocalInfo da) s).1.info.my)
      = gridOf s da
  frame : ∀ c s da, c.routine ≠ .DMDACreate2d → c.routine ≠ .DMDestroy →
    c.routine ≠ .PetscFinalize → gridOf (P c s).2 da = gridOf s da

/-- The report of a run gives the grid size: call 1 is `DMDACreate2d` with size
arguments -9, -9; the grid it makes has `gridSize (-9)` of the options
`-da_grid_x`, `-da_grid_y` of the command line `args` points per direction;
call 24 is `DMDAGetLocalInfo` on that grid and call 25 prints the `mx`, `my` it
reports, which are that size: 9 and 9 when neither option is given, `M` and
`N` when the options give `M` and `N`. -/
def ReportsGrid {σ : Type} (gridOf : σ → DM → PetscInt × PetscInt) (args : List String)
    (t : List (Event σ)) : Prop :=
  ∃ (e1 eInfo ePrint : Event σ) (mx my : PetscInt) (errnorm : PetscScalar),
    t[1]? = some e1 ∧
    e1.call = .DMDACreate2d .PETSC_COMM_WORLD .DM_BOUNDARY_NONE .DM_BOUNDARY_NONE
      .DMDA_STENCIL_STAR (-9) (-9) PETSC_DECIDE PETSC_DECIDE 1 1 none none ∧
    gridOf e1.after e1.resp.obj = (mx, my) ∧
    t[24]? = some eInfo ∧ eInfo.call = .DMDAGetLocalInfo e1.resp.obj ∧
    eInfo.resp.info = ⟨mx, my⟩ ∧
    t[25]? = some ePrint ∧
    ePrint.call = .PetscPrintf .PETSC_COMM_WORLD reportFormat mx my errnorm ∧
    mx = gridSize (-9) (optionInt args "-da_grid_x") ∧
    my = gridSize (-9) (optionInt args "-da_grid_y") ∧
    (optionInt args "-da_grid_x" = none → optionInt args "-da_grid_y" = none →
      mx = 9 ∧ my = 9 ∧ mx * my = 81) ∧
    (∀ M N, optionInt args "-da_grid_x" = some M → optionInt args "-da_grid_y" = some N →
      mx = M ∧ my = N)

/-! ## A small library for concrete runs -/

/-- A handle that is not in the list. -/
def freshHandle (l : List Nat) : Nat := l.foldr max 0 + 1

/-- The state of the small library: the command line, the size of the grid,
the vectors in use and their entries. -/
structure DemoState where
  options : List String
  grid : PetscInt × PetscInt
  vecs : List Vec
  vec : Vec → List PetscScalar

/-- The answer of a call that succeeds and hands back nothing. -/
def okResp : Resp := ⟨0, 0, 0, 0, ⟨0, 0⟩⟩

/-- A small library in which every call succeeds: it keeps the command line,
sizes the grid by `gridSize`, makes vectors of one entry per grid point, fills
`uexact` with `k/2` and `b` with ones, "solves" by dividing `b` by 4, and does
`VecAXPY`, `VecNorm` and `DMDAGetLocalInfo` as documented. -/
def demoPetsc : Petsc DemoState := fun c s =>
  match c with
  | .PetscInitialize args _ _ => (okResp, { s with options := args })
  | .DMDACreate2d _ _ _ _ M N _ _ _ _ _ _ =>
      (okResp, { s with grid := (gridSize M (optionInt s.options "-da_grid_x"),
                                 gridSize N (optionInt s.options "-da_grid_y")) })
  | .DMCreateGlobalVector _ =>
      (⟨0, freshHandle s.vecs, 0, 0, ⟨0, 0⟩⟩,
       { s with vecs := freshHandle s.vecs :: s.vecs,
                vec := fun v => if v = freshHandle s.vecs
                  then List.replicate (s.grid.1 * s.grid.2).toNat 0 else s.vec v })
  | .VecDuplicate w =>
      (⟨0, freshHandle s.vecs, 0, 0, ⟨0, 0⟩⟩,
       { s with vecs := freshHandle s.vecs :: s.vecs,
                vec := fun v => if v = freshHandle s.vecs
                  then List.replicate (s.vec w).length 0 else s.vec v })
  | .formExact _ x =>
      (okResp, { s with vec := fun v => if v = x
        then (List.range (s.vec x).length).map (fun k => (k : ℚ) / 2) else s.vec v })
  | .formRHS _ x =>
      (okResp, { s with vec := fun v => if v = x
        then List.replicate (s.vec x).length 1 else s.vec v })
  | .KSPSolve _ b x =>
      (okResp, { s with vec := fun v => if v = x
        then (s.vec b).map (· / 4) else s.vec v })
  | .VecAXPY y a x =>
      (okResp, { s with vec := fun v => if v = y
        then (vaxpy a (s.vec x) (s.vec y)) else s.vec v })
  | .VecNorm x _ => (⟨0, 0, 0, normInf (s.vec x), ⟨0, 0⟩⟩, s)
  | .DMDAGetLocalInfo _ => (⟨0, 0, 0, 0, ⟨s.grid.1, s.grid.2⟩⟩, s)
  | .VecDestroy x => (okResp, { s with vecs := s.vecs.erase x })
  | _ => (okResp, s)

/-- The small library before `main` starts. -/
def demoInit : DemoState := ⟨[], (0, 0), [], fun _ => []⟩

/-- The entries of a vector of the small library. -/
def demoVecOf (s : DemoState) (v : Vec) : List PetscScalar := s.vec v

/-- Whether a handle is a vector in use in the small library. -/
def demoIsVec (s : DemoState) (v : Vec) : Bool := decide (v ∈ s.vecs)

/-- The command line held by the small library. -/
def demoOptionsOf (s : DemoState) : List String := s.options

/-- The grid size held by the small library. -/
def demoGridOf (s : DemoState) (_ : DM) : PetscInt × PetscInt := s.grid

/-- A library in which the routine `r` fails with the code `code` and every
other call succeeds and hands back zeros. -/
def failingPetsc (r : Routine) (code : PetscErrorCode) : Petsc Unit := fun c _ =>
  (if c.routine = r then ⟨code, 0, 0, 0, ⟨0, 0⟩⟩ else ⟨0, 0, 0, 0, ⟨0, 0⟩⟩, ())

/-! ## Stepping through `main` -/

theorem isRun_snoc {σ : Type} (P : Petsc σ) (s : σ) (log : List (Event σ)) (e : Event σ)
    (h : IsRun P s log) (hb : e.before = lastState s log)
    (hp : P e.call e.before = (e.resp, e.after)) : IsRun P s (log ++ [e]) := by
  induction log generalizing s with
  | nil =>
    simp only [lastState] at hb
    subst hb
    exact ⟨rfl, hp, trivial⟩
  | cons a rest ih =>
    obtain ⟨h1, h2, h3⟩ := h
    exact ⟨h1, h2, ih a.after h3 hb⟩

theorem lastState_snoc {σ : Type} (s : σ) (log : List (Event σ)) (e : Event σ) :
    lastState s (log ++ [e]) = e.after := by
  induction log generalizing s with
  | nil => rfl
  | cons a rest ih => exact ih a.after

theorem allOk_snoc {σ : Type} (log : List (Event σ)) (e : Event σ)
    (h : AllOk log) (he : e.call.checked = true → e.resp.ierr = 0) : AllOk (log ++ [e]) := by
  intro a ha
  rcases List.mem_append.1 ha with ha | ha
  · exact h a ha
  · rw [List.mem_singleton.1 ha]
    exact he

theorem walk_nil {σ : Type} (P : Petsc σ) (s : σ) : Walk P s (s, []) :=
  ⟨trivial, rfl, fun _ h => nomatch h⟩

theorem walk_cons {σ : Type} (P : Petsc σ) (s : σ) (c : Call) (w : σ × List (Event σ))
    (hw : Walk P s w) (hc : c.checked = true → (P c w.1).1.ierr = 0) :
    Walk P s ((P c w.1).2, ⟨c, (P c w.1).1, w.1, (P c w.1).2⟩ :: w.2) := by
  refine ⟨?_, ?_, ?_⟩
  · show IsRun P s (List.reverse (_ :: w.2))
    rw [List.reverse_cons]
    exact isRun_snoc P s _ _ hw.isRun hw.last.symm rfl
  · show lastState s (List.reverse (_ :: w.2)) = _
    rw [List.reverse_cons]
    exact lastState_snoc _ _ _
  · show AllOk (List.reverse (_ :: w.2))
    rw [List.reverse_cons]
    exact allOk_snoc _ _ hw.allOk hc

theorem chk_step {σ : Type} (P : Petsc σ) (s : σ)
    (Q : PetscErrorCode × (σ × List (Event σ)) → Prop)
    (c : Call) (w : σ × List (Event σ))
    (k : Resp → σ × List (Event σ) → PetscErrorCode × (σ × List (Event σ)))
    (_hc : c.checked = true) (hw : Walk P s w)
    (herr : ∀ x : Resp × σ, x.1.ierr ≠ 0 → P c w.1 = x →
      Q (x.1.ierr, (x.2, ⟨c, x.1, w.1, x.2⟩ :: w.2)))
    (hok : ∀ x : Resp × σ, x.1.ierr = 0 → Walk P s (x.2, ⟨c, x.1, w.1, x.2⟩ :: w.2) →
      Q (k x.1 (x.2, ⟨c, x.1, w.1, x.2⟩ :: w.2))) :
    Q (chk (traced P c w) k) := by
  unfold chk CHKERRQ traced
  by_cases h : (P c w.1).1.ierr = 0
  · simpa [h] using hok (P c w.1) h (walk_cons P s c w hw (fun _ => h))
  · simpa [h] using herr (P c w.1) h rfl

theorem run_step {σ : Type} (P : Petsc σ) (s : σ)
    (Q : PetscErrorCode × (σ × List (Event σ)) → Prop)
    (c : Call) (w : σ × List (Event σ))
    (k : σ × List (Event σ) → PetscErrorCode × (σ × List (Event σ)))
    (hc : c.checked = false) (hw : Walk P s w)
    (h : ∀ x : Resp × σ, Walk P s (x.2, ⟨c, x.1, w.1, x.2⟩ :: w.2) →
      Q (k (x.2, ⟨c, x.1, w.1, x.2⟩ :: w.2))) :
    Q (run (traced P c w) k) :=
  h (P c w.1) (walk_cons P s c w hw (fun hc2 => absurd (hc.symm.trans hc2) (by decide)))

theorem runSpec_err {σ : Type} (P : Petsc σ) (args : List String) (s : σ)
    (w : σ × List (Event σ)) (c : Call) (x : Resp × σ)
    (hw : Walk P s w) (hx : P c w.1 = x) (hc : c.checked = true) (he : x.1.ierr ≠ 0)
    (hconf : (List.reverse (⟨c, x.1, w.1, x.2⟩ :: w.2)).map Event.call
      = (script args (respOf (List.reverse (⟨c, x.1, w.1, x.2⟩ :: w.2)))).take
          (List.reverse (⟨c, x.1, w.1, x.2⟩ :: w.2)).length) :
    RunSpec P args s x.1.ierr x.2 (List.reverse (⟨c, x.1, w.1, x.2⟩ :: w.2)) where
  isRun := by
    rw [List.reverse_cons]
    exact isRun_snoc P s _ _ hw.isRun hw.last.symm (by rw [← hx])
  final := by
    rw [List.reverse_cons]
    exact (lastState_snoc s _ ⟨c, x.1, w.1, x.2⟩).symm
  conforms := hconf
  okPrefix := by
    rw [List.reverse_cons]
    simpa using hw.allOk
  success := fun h => absurd h he
  failure := fun _ => ⟨⟨c, x.1, w.1, x.2⟩, by simp, hc, rfl⟩

theorem runSpec_ok {σ : Type} (P : Petsc σ) (args : List String) (s : σ)
    (w : σ × List (Event σ)) (hw : Walk P s w)
    (hlen : w.2.reverse.length = 33)
    (hconf : w.2.reverse.map Event.call
      = (script args (respOf w.2.reverse)).take w.2.reverse.length) :
    RunSpec P args s 0 w.1 w.2.reverse where
  isRun := hw.isRun
  final := hw.last.symm
  conforms := hconf
  okPrefix := fun e he => hw.allOk e (List.mem_of_mem_dropLast he)
  success := fun _ => ⟨hlen, hw.allOk⟩
  failure := fun h => absurd rfl h

set_option maxRecDepth 100000 in
/-- Every run of `main` against the logging library has the shape `RunSpec`. -/
theorem main_traced_spec {σ : Type} (P : Petsc σ) (args : List String) (s : σ) :
    RunSpec P args s (main (traced P) args (s, [])).1 (main (traced P) args (s, [])).2.1
      (trace P args s) := by
  unfold trace main
  refine run_step P s (fun o => RunSpec P args s o.1 o.2.1 o.2.2.reverse) _ _ _ rfl
    (walk_nil P s) (fun x hw => ?_)
  dsimp only at hw ⊢
  iterate 25
    refine chk_step P s (fun o => RunSpec P args s o.1 o.2.1 o.2.2.reverse) _ _ _ rfl hw
      (fun x he hx => ?_) (fun x he hw => ?_)
    · exact runSpec_err P args s _ _ x hw hx rfl he rfl
    dsimp only at hw ⊢
  iterate 7
    refine run_step P s (fun o => RunSpec P args s o.1 o.2.1 o.2.2.reverse) _ _ _ rfl hw
      (fun x hw => ?_)
    dsimp only at hw ⊢
  exact runSpec_ok P args s _ hw rfl rfl

/-- Logging does not change what `main` does: same return value, same final
library state. -/
theorem chk_traced {σ : Type} (P : Petsc σ) (c : Call) (w : σ × List (Event σ))
    (k1 : Resp → σ × List (Event σ) → PetscErrorCode × (σ × List (Event σ)))
    (k2 : Resp → σ → PetscErrorCode × σ)
    (h : ∀ r w1, (k1 r w1).1 = (k2 r w1.1).1 ∧ (k1 r w1).2.1 = (k2 r w1.1).2) :
    (chk (traced P c w) k1).1 = (chk (P c w.1) k2).1 ∧
      (chk (traced P c w) k1).2.1 = (chk (P c w.1) k2).2 := by
  unfold chk traced
  cases CHKERRQ (P c w.1).1.ierr with
  | none => exact h _ _
  | some e => exact ⟨rfl, rfl⟩

theorem run_traced {σ : Type} (P : Petsc σ) (c : Call) (w : σ × List (Event σ))
    (k1 : σ × List (Event σ) → PetscErrorCode × (σ × List (Event σ)))
    (k2 : σ → PetscErrorCode × σ)
    (h : ∀ w1, (k1 w1).1 = (k2 w1.1).1 ∧ (k1 w1).2.1 = (k2 w1.1).2) :
    (run (traced P c w) k1).1 = (run (P c w.1) k2).1 ∧
      (run (traced P c w) k1).2.1 = (run (P c w.1) k2).2 :=
  h _

theorem main_traced {σ : Type} (P : Petsc σ) (args : List String) (w : σ × List (Event σ)) :
    (main (traced P) args w).1 = (main P args w.1).1 ∧
      (main (traced P) args w).2.1 = (main P args w.1).2 := by
  unfold main
  refine run_traced P _ _ _ _ (fun w => ?_)
  iterate 25
    refine chk_traced P _ _ _ _ (fun r w => ?_)
    dsimp only
  iterate 7
    refine run_traced P _ _ _ _ (fun w => ?_)
  exact ⟨rfl, rfl⟩

/-- Every run of `main` has the shape `RunSpec`. -/
theorem main_spec {σ : Type} (P : Petsc σ) (args : List String) (s : σ) :
    RunSpec P args s (ret P args s) (finalState P args s) (trace P args s) := by
  have h := main_traced_spec P args s
  rw [(main_traced P args (s, [])).1, (main_traced P args (s, [])).2] at h
  exact h

/-! ## Facts about the call sequence -/

theorem checked_routine (c : Call) : c.checked = c.routine.checked := by
  cases c <;> rfl

theorem script_routines (args : List String) (r : Nat → Resp) :
    (script args r).map Call.routine = routines := rfl

theorem script_length (args : List String) (r : Nat → Resp) : (script args r).length = 33 := rfl

theorem RunSpec.length_le {σ : Type} {P : Petsc σ} {args : List String} {s : σ}
    {r : PetscErrorCode} {sf : σ} {t : List (Event σ)} (h : RunSpec P args s r sf t) :
    t.length ≤ 33 := by
  have h1 := congrArg List.length h.conforms
  rw [List.length_map, List.length_take, script_length] at h1
  omega

theorem RunSpec.routines_eq {σ : Type} {P : Petsc σ} {args : List String} {s : σ}
    {r : PetscErrorCode} {sf : σ} {t : List (Event σ)} (h : RunSpec P args s r sf t) :
    t.map (fun e => e.call.routine) = routines.take t.length := by
  have h1 := congrArg (List.map Call.routine) h.conforms
  rw [List.map_map, List.map_take, script_routines] at h1
  exact h1

theorem routines_last_checked : ∀ n, n ≤ 33 →
    ((routines.take n).getLast?.map Routine.checked = some true → 2 ≤ n ∧ n ≤ 26) := by
  decide

theorem RunSpec.length_of_failure {σ : Type} {P : Petsc σ} {args : List String} {s : σ}
    {r : PetscErrorCode} {sf : σ} {t : List (Event σ)} (h : RunSpec P args s r sf t)
    (hr : r ≠ 0) : 2 ≤ t.length ∧ t.length ≤ 26 := by
  obtain ⟨e, he, hc, _⟩ := h.failure hr
  apply routines_last_checked t.length h.length_le
  rw [← h.routines_eq, List.getLast?_map, he]
  simp [← checked_routine, hc]

theorem RunSpec.ret_zero_iff_length {σ : Type} {P : Petsc σ} {args : List String} {s : σ}
    {r : PetscErrorCode} {sf : σ} {t : List (Event σ)} (h : RunSpec P args s r sf t) :
    r = 0 ↔ t.length = 33 := by
  constructor
  · exact fun hr => (h.success hr).1
  · intro hl
    by_contra hr
    have := h.length_of_failure hr
    omega

theorem RunSpec.ret_zero_iff_allOk {σ : Type} {P : Petsc σ} {args : List String} {s : σ}
    {r : PetscErrorCode} {sf : σ} {t : List (Event σ)} (h : RunSpec P args s r sf t) :
    r = 0 ↔ AllOk t := by
  constructor
  · exact fun hr => (h.success hr).2
  · intro hall
    by_contra hr
    obtain ⟨e, he, hc, hie⟩ := h.failure hr
    exact hr (hie ▸ hall e (List.mem_of_getLast?_eq_some he) hc)

theorem RunSpec.stops_at_error {σ : Type} {P : Petsc σ} {args : List String} {s : σ}
    {r : PetscErrorCode} {sf : σ} {t : List (Event σ)} (h : RunSpec P args s r sf t)
    (pre : List (Event σ)) (e : Event σ) (post : List (Event σ)) (ht : t = pre ++ e :: post)
    (hc : e.call.checked = true) (he : e.resp.ierr ≠ 0) :
    post = [] ∧ r = e.resp.ierr ∧ r ≠ 0 ∧ sf = e.after := by
  have hpost : post = [] := by
    by_contra hne
    have hmem : e ∈ t.dropLast := by
      rw [ht]
      obtain ⟨q, z, rfl⟩ : ∃ q z, post = q ++ [z] :=
        ⟨post.dropLast, post.getLast hne, (List.dropLast_append_getLast hne).symm⟩
      rw [show pre ++ e :: (q ++ [z]) = (pre ++ e :: q) ++ [z] by simp, List.dropLast_concat]
      simp
    exact he (h.okPrefix e hmem hc)
  subst hpost
  have hr : r ≠ 0 := by
    intro hr
    exact he ((h.success hr).2 e (by rw [ht]; simp) hc)
  obtain ⟨e1, he1, _, hie⟩ := h.failure hr
  have : e1 = e := by
    rw [ht] at he1
    simpa using he1.symm
  subst this
  refine ⟨rfl, hie.symm, hr, ?_⟩
  rw [h.final, ht]
  exact lastState_snoc s pre e1

theorem chk_override {σ : Type} (f : Call → PetscErrorCode → PetscErrorCode) (P : Petsc σ)
    (c : Call) (s : σ) (k1 k2 : Resp → σ → PetscErrorCode × σ)
    (hc : c.checked = true) (h : ∀ r s1, k1 r s1 = k2 r s1) :
    chk (overrideUnchecked f P c s) k1 = chk (P c s) k2 := by
  have hk : k1 = k2 := funext fun r => funext fun s1 => h r s1
  unfold overrideUnchecked
  rw [if_pos hc, hk]

theorem run_override {σ : Type} (f : Call → PetscErrorCode → PetscErrorCode) (P : Petsc σ)
    (c : Call) (s : σ) (k1 k2 : σ → PetscErrorCode × σ)
    (hc : c.checked = false) (h : ∀ s1, k1 s1 = k2 s1) :
    run (overrideUnchecked f P c s) k1 = run (P c s) k2 := by
  unfold overrideUnchecked run
  rw [if_neg (by rw [hc]; decide)]
  exact h _

theorem main_override {σ : Type} (f : Call → PetscErrorCode → PetscErrorCode) (P : Petsc σ)
    (args : List String) (s : σ) : main (overrideUnchecked f P) args s = main P args s := by
  unfold main
  refine run_override f P _ _ _ _ rfl (fun s => ?_)
  iterate 25
    refine chk_override f P _ _ _ _ rfl (fun r s => ?_)
    dsimp only
  iterate 7
    refine run_override f P _ _ _ _ rfl (fun s => ?_)
  rfl

/-! ## C8: the return code -/

/-- C8: `main` returns 0 exactly when every checked call of the run returned 0.
A checked call that returns a nonzero code is the last call of the run: `main`
returns that (nonzero) code at once and the library is left in the state that
call produced.  The unchecked routines are `PetscInitialize`, the four destroy
routines and `PetscFinalize`, and whatever codes they return, `main` behaves
the same. -/
theorem main_return_code {σ : Type} (P : Petsc σ) (args : List String) (s : σ) :
    (ret P args s = 0 ↔ ∀ e ∈ trace P args s, e.call.checked = true → e.resp.ierr = 0) ∧
    (∀ pre e post, trace P args s = pre ++ e :: post → e.call.checked = true →
      e.resp.ierr ≠ 0 →
      post = [] ∧ ret P args s = e.resp.ierr ∧ ret P args s ≠ 0 ∧
        finalState P args s = e.after) ∧
    (∀ c : Call, c.checked = false ↔
      c.routine ∈ [Routine.PetscInitialize, Routine.KSPDestroy, Routine.VecDestroy,
        Routine.MatDestroy, Routine.DMDestroy, Routine.PetscFinalize]) ∧
    (∀ f : Call → PetscErrorCode → PetscErrorCode,
      main (overrideUnchecked f P) args s = main P args s) := by
  have h := main_spec P args s
  refine ⟨h.ret_zero_iff_allOk, fun pre e post ht hc he => h.stops_at_error pre e post ht hc he,
    fun c => ?_, fun f => main_override f P args s⟩
  cases c <;> simp [Call.checked, Call.routine]

/-- C8 at concrete runs: when `KSPSolve` fails with code 77, `main` returns 77
after 21 calls; when only `PetscFinalize` fails, `main` still returns 0 after
all 33 calls. -/
theorem main_return_code_witness :
    ret (failingPetsc .KSPSolve 77) [] () = 77 ∧
    (trace (failingPetsc .KSPSolve 77) [] ()).length = 21 ∧
    ret (failingPetsc .PetscFinalize 77) [] () = 0 ∧
    (trace (failingPetsc .PetscFinalize 77) [] ()).length = 33 ∧
    (ret (failingPetsc .KSPSolve 77) [] () = 0 ↔
      ∀ e ∈ trace (failingPetsc .KSPSolve 77) [] (),
        e.call.checked = true → e.resp.ierr = 0) :=
  ⟨rfl, rfl, rfl, rfl, (main_return_code (failingPetsc .KSPSolve 77) [] ()).1⟩

/-! ## Events by position -/

theorem respOf_eq {σ : Type} (t : List (Event σ)) (k : Nat) (e : Event σ) (h : t[k]? = some e) :
    respOf t k = e.resp := by
  unfold respOf
  rw [h]

theorem RunSpec.call_at {σ : Type} {P : Petsc σ} {args : List String} {s : σ}
    {r : PetscErrorCode} {sf : σ} {t : List (Event σ)} (h : RunSpec P args s r sf t)
    (k : Nat) (e : Event σ) (hk : t[k]? = some e) :
    (script args (respOf t))[k]? = some e.call := by
  have hlt : k < t.length := by
    by_contra hge
    rw [List.getElem?_eq_none (by omega)] at hk
    exact nomatch hk
  have h1 : (t.map Event.call)[k]? = some e.call := by
    rw [List.getElem?_map, hk]
    rfl
  rw [h.conforms, List.getElem?_take_of_lt hlt] at h1
  exact h1

theorem RunSpec.ok_at {σ : Type} {P : Petsc σ} {args : List String} {s : σ}
    {sf : σ} {t : List (Event σ)} (h : RunSpec P args s 0 sf t)
    (k : Nat) (e : Event σ) (hk : t[k]? = some e) (hc : e.call.checked = true) :
    e.resp.ierr = 0 :=
  (h.success rfl).2 e (List.getElem?_mem hk) hc

theorem RunSpec.exists_at {σ : Type} {P : Petsc σ} {args : List String} {s : σ}
    {sf : σ} {t : List (Event σ)} (h : RunSpec P args s 0 sf t)
    (k : Nat) (hk : k < 33) : ∃ e, t[k]? = some e := by
  have hl := (h.success rfl).1
  exact ⟨t[k], List.getElem?_eq_getElem (by omega)⟩

theorem RunSpec.returnedAt {σ : Type} {P : Petsc σ} {args : List String} {s : σ}
    {sf : σ} {t : List (Event σ)} (h : RunSpec P args s 0 sf t)
    (k : Nat) (hk : k < 33) (c : Call) (hc : c.checked = true)
    (hs : (script args (respOf t))[k]? = some c) :
    ReturnedAt t k c (respOf t k).obj := by
  obtain ⟨e, he⟩ := h.exists_at k hk
  have h1 := h.call_at k e he
  rw [hs] at h1
  have h2 : c = e.call := Option.some.inj h1
  refine ⟨e, he, h2.symm, h.ok_at k e he (h2 ▸ hc), ?_⟩
  rw [respOf_eq t k e he]

theorem routines_cleanup : ∀ n, n ≤ 33 →
    ((routines.take n).any Routine.isCleanup = true ↔ 26 < n) := by
  decide

theorem routines_take26 : (routines.take 26).all (fun x => !x.isCleanup) = true := by
  decide

theorem routines_between : ∀ n, n ≤ 26 →
    (((routines.take n).dropLast.getLast? = some Routine.PetscLogStagePush ↔
      ((routines.take n).getLast? = some Routine.formdirichletlaplacian ∨
        (routines.take n).getLast? = some Routine.KSPSolve)) ∧
     ((routines.take n).dropLast.getLast? = some Routine.PetscLogStagePush →
        stageDepth (routines.take n) = 1 ∧
        (routines.take n).getLast? ≠ some Routine.PetscLogStagePop)) := by
  decide

/-! ## C9: clean-up -/

/-- C9: the clean-up calls are made exactly on the successful runs.  On
success the last seven calls are `KSPDestroy(ksp)`, `VecDestroy(u)`,
`VecDestroy(uexact)`, `VecDestroy(b)`, `MatDestroy(A)`, `DMDestroy(da)`,
`PetscFinalize()` in this order, on the handles the run created, and no
clean-up call is made before them.  On an error return no clean-up call is
made at all, and when the failing call directly follows a `PetscLogStagePush`
(which happens exactly when it is `formdirichletlaplacian` or `KSPSolve`) it
is not a pop and the run ends with that stage still open. -/
theorem main_cleanup {σ : Type} (P : Petsc σ) (args : List String) (s : σ) :
    (ret P args s = 0 ↔ ∃ e ∈ trace P args s, e.call.routine.isCleanup = true) ∧
    (ret P args s = 0 → ∃ da A b u uexact ksp : Nat,
      ReturnedAt (trace P args s) 1 (.DMDACreate2d .PETSC_COMM_WORLD .DM_BOUNDARY_NONE
        .DM_BOUNDARY_NONE .DMDA_STENCIL_STAR (-9) (-9) PETSC_DECIDE PETSC_DECIDE 1 1 none none) da ∧
      ReturnedAt (trace P args s) 3 (.DMCreateMatrix da) A ∧
      ReturnedAt (trace P args s) 6 (.DMCreateGlobalVector da) b ∧
      ReturnedAt (trace P args s) 7 (.VecDuplicate b) u ∧
      ReturnedAt (trace P args s) 8 (.VecDuplicate b) uexact ∧
      ReturnedAt (trace P args s) 15 (.KSPCreate .PETSC_COMM_WORLD) ksp ∧
      ((trace P args s).drop 26).map Event.call =
        [.KSPDestroy ksp, .VecDestroy u, .VecDestroy uexact, .VecDestroy b,
          .MatDestroy A, .DMDestroy da, .PetscFinalize] ∧
      ∀ e ∈ (trace P args s).take 26, e.call.routine.isCleanup = false) ∧
    (ret P args s ≠ 0 → ∀ e ∈ trace P args s, e.call.routine.isCleanup = false) ∧
    (ret P args s ≠ 0 → ∀ pre p e, trace P args s = pre ++ [p, e] →
      ((p.call.routine = .PetscLogStagePush ↔
          (e.call.routine = .formdirichletlaplacian ∨ e.call.routine = .KSPSolve)) ∧
       (p.call.routine = .PetscLogStagePush →
          e.call.routine ≠ .PetscLogStagePop ∧
          stageDepth ((trace P args s).map fun x => x.call.routine) = 1))) := by
  have h := main_spec P args s
  have hany : (∃ e ∈ trace P args s, e.call.routine.isCleanup = true) ↔
      26 < (trace P args s).length := by
    rw [← routines_cleanup _ h.length_le, ← h.routines_eq]
    simp [List.any_eq_true]
  refine ⟨?_, ?_, ?_, ?_⟩
  · rw [hany, h.ret_zero_iff_length]
    constructor
    · intro hl
      omega
    · intro hl
      by_contra hne
      have := h.length_of_failure (fun hr => hne (h.ret_zero_iff_length.1 hr))
      omega
  · intro hr
    rw [hr] at h
    have hlen := (h.success rfl).1
    refine ⟨_, _, _, _, _, _, h.returnedAt 1 (by decide) _ rfl rfl,
      h.returnedAt 3 (by decide) _ rfl rfl, h.returnedAt 6 (by decide) _ rfl rfl,
      h.returnedAt 7 (by decide) _ rfl rfl, h.returnedAt 8 (by decide) _ rfl rfl,
      h.returnedAt 15 (by decide) _ rfl rfl, ?_, ?_⟩
    · rw [List.map_drop, h.conforms, hlen]
      rfl
    · intro e he
      have h1 : ((trace P args s).take 26).map (fun e => e.call.routine) = routines.take 26 := by
        rw [List.map_take, h.routines_eq, hlen]
        rfl
      have h2 := routines_take26
      rw [← h1, List.all_eq_true] at h2
      simpa using h2 e.call.routine (List.mem_map.2 ⟨e, he, rfl⟩)
  · intro hr e he
    have hl := h.length_of_failure hr
    have hn : ¬ (∃ e ∈ trace P args s, e.call.routine.isCleanup = true) := by
      rw [hany]
      omega
    by_contra hc
    exact hn ⟨e, he, by simpa using hc⟩
  · intro hr pre p e ht
    have hl := h.length_of_failure hr
    have hb := routines_between _ hl.2
    rw [← h.routines_eq] at hb
    rw [ht] at hb ⊢
    simp only [List.map_append, List.map_cons, List.map_nil] at hb ⊢
    rw [show List.map (fun e => e.call.routine) pre ++ [p.call.routine, e.call.routine]
        = (List.map (fun e => e.call.routine) pre ++ [p.call.routine]) ++ [e.call.routine]
      by simp] at hb ⊢
    simp only [List.dropLast_concat, List.getLast?_concat, Option.some.injEq, ne_eq] at hb
    exact ⟨hb.1, fun hp => ⟨(hb.2 hp).2, (hb.2 hp).1⟩⟩

/-- C9 at a concrete run: when `KSPSolve` fails, the calls made are the first
21 of the script, the "Solve" stage is left open, and no clean-up call is
made. -/
theorem main_cleanup_witness :
    ((trace (failingPetsc .KSPSolve 77) [] ()).map fun e => e.call.routine)
      = routines.take 21 ∧
    stageDepth ((trace (failingPetsc .KSPSolve 77) [] ()).map fun e => e.call.routine) = 1 ∧
    (ret (failingPetsc .KSPSolve 77) [] () ≠ 0 →
      ∀ e ∈ trace (failingPetsc .KSPSolve 77) [] (), e.call.routine.isCleanup = false) :=
  ⟨rfl, rfl, (main_cleanup (failingPetsc .KSPSolve 77) [] ()).2.2.1⟩

/-! ## C5: the log stages -/

theorem RunSpec.routine_at {σ : Type} {P : Petsc σ} {args : List String} {s : σ}
    {r : PetscErrorCode} {sf : σ} {t : List (Event σ)} (h : RunSpec P args s r sf t)
    (k : Nat) (e : Event σ) (hk : t[k]? = some e) :
    routines[k]? = some e.call.routine := by
  have h1 := congrArg (Option.map Call.routine) (h.call_at k e hk)
  rw [← List.getElem?_map, script_routines] at h1
  exact h1

theorem RunSpec.index_lt {σ : Type} {P : Petsc σ} {args : List String} {s : σ}
    {r : PetscErrorCode} {sf : σ} {t : List (Event σ)} (h : RunSpec P args s r sf t)
    (k : Nat) (e : Event σ) (hk : t[k]? = some e) : k < 33 := by
  by_contra hge
  rw [List.getElem?_eq_none (by have := h.length_le; omega)] at hk
  exact nomatch hk

theorem routines_stage_positions : ∀ k, k < 33 → ∀ x, routines[k]? = some x →
    ((x = Routine.PetscLogStagePush ↔ k = 12 ∨ k = 19) ∧
     (x = Routine.PetscLogStagePop ↔ k = 14 ∨ k = 21) ∧
     (x = Routine.formdirichletlaplacian ↔ k = 13) ∧
     (x = Routine.KSPSolve ↔ k = 20) ∧
     ((x = Routine.VecAXPY ∨ x = Routine.VecNorm) → stageDepth (routines.take k) = 0)) := by
  intro k hk
  interval_cases k <;> (intro x hx; cases hx; decide)

theorem routines_depth : ∀ n, n ≤ 33 →
    (0 ≤ stageDepth (routines.take n) ∧ stageDepth (routines.take n) ≤ 1) := by
  decide

/-- C5: on a successful run the "Matrix Assembly" stage is pushed, then
`formdirichletlaplacian` is called, then the stage is popped; the "Solve"
stage is pushed, then `KSPSolve` is called, then the stage is popped; these
are the only pushes and pops, so each push has exactly one pop and exactly one
call between them; at most one stage is ever open, and none is open when the
error norm is computed. -/
theorem main_log_stages {σ : Type} (P : Petsc σ) (args : List String) (s : σ)
    (hret : ret P args s = 0) : StagesNested (trace P args s) := by
  have h := main_spec P args s
  rw [hret] at h
  have hlen := (h.success rfl).1
  have hrt := h.routines_eq
  rw [hlen, show routines.take 33 = routines from rfl] at hrt
  have htake : ∀ n, ((trace P args s).take n).map (fun x => x.call.routine)
      = routines.take n := by
    intro n
    rw [List.map_take, hrt]
  obtain ⟨e11, he11⟩ := h.exists_at 11 (by decide)
  obtain ⟨e18, he18⟩ := h.exists_at 18 (by decide)
  have c11 : some (Call.PetscLogStageRegister "Matrix Assembly") = some e11.call :=
    h.call_at 11 e11 he11
  have c18 : some (Call.PetscLogStageRegister "Solve") = some e18.call :=
    h.call_at 18 e18 he18
  have c11 := (Option.some.inj c11).symm
  have c18 := (Option.some.inj c18).symm
  refine ⟨e11.resp.stage, e18.resp.stage, (respOf (trace P args s) 1).obj,
    (respOf (trace P args s) 3).obj, (respOf (trace P args s) 15).obj,
    (respOf (trace P args s) 6).obj, (respOf (trace P args s) 7).obj,
    ⟨e11, he11, c11, h.ok_at 11 e11 he11 (by rw [c11]; rfl), rfl⟩,
    ⟨e18, he18, c18, h.ok_at 18 e18 he18 (by rw [c18]; rfl), rfl⟩, ?_, ?_, ?_, ?_, ?_⟩
  · rw [List.map_take, List.map_drop, h.conforms, hlen, ← respOf_eq _ 11 e11 he11]
    rfl
  · rw [List.map_take, List.map_drop, h.conforms, hlen, ← respOf_eq _ 18 e18 he18]
    rfl
  · intro k e hk
    have := routines_stage_positions k (h.index_lt k e hk) _ (h.routine_at k e hk)
    rw [htake]
    exact this
  · intro n
    rw [htake]
    by_cases hn : n ≤ 33
    · exact routines_depth n hn
    · rw [List.take_of_length_le (by simp [routines]; omega)]
      exact routines_depth 33 (le_refl _)
  · rw [hrt]
    rfl

/-- C5 at a concrete run: the library in which every call succeeds. -/
theorem main_log_stages_witness :
    ret okPetsc [] () = 0 ∧ StagesNested (trace okPetsc [] ()) :=
  ⟨rfl, main_log_stages okPetsc [] () rfl⟩

/-! ## C3: the system handed to the solver -/

theorem isRun_prefix {σ : Type} (P : Petsc σ) (s : σ) (a b : List (Event σ))
    (h : IsRun P s (a ++ b)) : IsRun P s a := by
  induction a generalizing s with
  | nil => trivial
  | cons x rest ih => exact ⟨h.1, h.2.1, ih x.after h.2.2⟩

theorem routines_solve : ∀ k, k < 33 → routines[k]? = some Routine.KSPSolve → k = 20 := by
  decide

theorem RunSpec.returnedAt_prefix {σ : Type} {P : Petsc σ} {args : List String} {s : σ}
    {r : PetscErrorCode} {sf : σ} {t : List (Event σ)} (h : RunSpec P args s r sf t)
    (pre post : List (Event σ)) (ht : t = pre ++ post) (hpost : post ≠ [])
    (k : Nat) (hk : k < pre.length) (c : Call) (hc : c.checked = true)
    (hs : (script args (respOf t))[k]? = some c) :
    ReturnedAt pre k c (respOf t k).obj := by
  have hpk : pre[k]? = some pre[k] := List.getElem?_eq_getElem hk
  have htk : t[k]? = some pre[k] := by
    rw [ht, List.getElem?_append_left hk]
    exact hpk
  have h1 := h.call_at k _ htk
  rw [hs] at h1
  have h2 : c = pre[k].call := Option.some.inj h1
  have hmem : pre[k] ∈ t.dropLast := by
    rw [ht, List.dropLast_append_of_ne_nil pre hpost]
    exact List.mem_append_left _ (List.getElem_mem hk)
  refine ⟨pre[k], hpk, h2.symm, h.okPrefix _ hmem (h2 ▸ hc), ?_⟩
  rw [respOf_eq t k _ htk]

/-- C3: whenever `main` calls `KSPSolve(ksp,b,u)`, the twenty calls made before
it are exactly lines 20-63 in source order, every checked one of them returned
0, and the handles fit together: `da` is what `DMDACreate2d` returned, `A` what
`DMCreateMatrix(da)` returned and what `formdirichletlaplacian(da,1.0,A)`
filled, `b` what `DMCreateGlobalVector(da)` returned and `formRHS(da,b)`
filled, `uexact` what `formExact(da,uexact)` filled, `ksp` what `KSPCreate`
returned, and `KSPSetOperators(ksp,A,A)` was called with that same `A` twice;
the calls up to and including `KSPSolve` are an execution of the library. -/
theorem main_system_before_solve {σ : Type} (P : Petsc σ) (args : List String) (s : σ)
    (pre : List (Event σ)) (e : Event σ) (post : List (Event σ)) (ksp : KSP) (b u : Vec)
    (ht : trace P args s = pre ++ e :: post) (he : e.call = .KSPSolve ksp b u) :
    SystemReady args pre ksp b u ∧ IsRun P s (pre ++ [e]) := by
  have h := main_spec P args s
  have hk : (trace P args s)[pre.length]? = some e := by
    rw [ht, List.getElem?_append_right (le_refl _), Nat.sub_self]
    exact List.getElem?_cons_zero
  have hlt := h.index_lt _ e hk
  have hr := h.routine_at _ e hk
  rw [he] at hr
  have h20 : pre.length = 20 := routines_solve _ hlt hr
  have hc := h.call_at _ e hk
  rw [h20, he] at hc
  have hc2 : some (Call.KSPSolve (respOf (trace P args s) 15).obj
      (respOf (trace P args s) 6).obj (respOf (trace P args s) 7).obj)
      = some (Call.KSPSolve ksp b u) := hc
  have hinj := Option.some.inj hc2
  injection hinj with hksp hb hu
  have hlen : 21 ≤ (trace P args s).length := by
    rw [ht, List.length_append, List.length_cons]
    omega
  have hpre : pre = (trace P args s).take 20 := by
    rw [ht, ← h20, List.take_left]
  have hne : e :: post ≠ [] := List.cons_ne_nil _ _
  refine ⟨⟨(respOf (trace P args s) 1).obj, (respOf (trace P args s) 3).obj,
    (respOf (trace P args s) 8).obj, (respOf (trace P args s) 11).stage,
    (respOf (trace P args s) 18).stage, ?_, ?_, ?_, ?_, ?_, ?_, ?_, ?_⟩, ?_⟩
  · rw [hpre, List.map_take, h.conforms, List.take_take,
      show min 20 (trace P args s).length = 20 by omega, ← hksp, ← hb]
    rfl
  · intro x hx
    apply h.okPrefix x
    rw [ht, List.dropLast_append_of_ne_nil pre hne]
    exact List.mem_append_left _ hx
  · exact h.returnedAt_prefix pre _ ht hne 1 (by omega) _ rfl rfl
  · exact h.returnedAt_prefix pre _ ht hne 3 (by omega) _ rfl rfl
  · rw [← hb]
    exact h.returnedAt_prefix pre _ ht hne 6 (by omega) _ rfl rfl
  · rw [← hb, ← hu]
    exact h.returnedAt_prefix pre _ ht hne 7 (by omega) _ rfl rfl
  · rw [← hb]
    exact h.returnedAt_prefix pre _ ht hne 8 (by omega) _ rfl rfl
  · rw [← hksp]
    exact h.returnedAt_prefix pre _ ht hne 15 (by omega) _ rfl rfl
  · apply isRun_prefix P s _ post
    rw [List.append_assoc]
    exact ht ▸ h.isRun

/-- C3 at a concrete run: the library in which every call succeeds, split at
its `KSPSolve` call. -/
theorem main_system_before_solve_witness :
    trace okPetsc [] () = (trace okPetsc [] ()).take 20
      ++ ⟨.KSPSolve 0 0 0, ⟨0, 0, 0, 0, ⟨0, 0⟩⟩, (), ()⟩ :: (trace okPetsc [] ()).drop 21 ∧
    (⟨.KSPSolve 0 0 0, ⟨0, 0, 0, 0, ⟨0, 0⟩⟩, (), ()⟩ : Event Unit).call = .KSPSolve 0 0 0 ∧
    SystemReady [] ((trace okPetsc [] ()).take 20) 0 0 0 ∧
    IsRun okPetsc ()
      ((trace okPetsc [] ()).take 20 ++ [⟨.KSPSolve 0 0 0, ⟨0, 0, 0, 0, ⟨0, 0⟩⟩, (), ()⟩]) :=
  ⟨rfl, rfl, main_system_before_solve okPetsc [] () _ _ _ 0 0 0 rfl rfl⟩

/-! ## C6: weak scaling -/

/-- C6: for every `kk` of the weak-scaling loop, `NN*NN/MM` is exactly 2500
(the division leaves no remainder), `MM` is the square of `2^kk`, `NN` is
`2^kk` blocks of 50, so the `NN` x `NN` grid is a `2^kk` x `2^kk` array of
50 x 50 blocks; the four runs are 50 x 50 on 1, 100 x 100 on 4, 200 x 200 on 16
and 400 x 400 on 64 processes. -/
theorem weak_scaling_work (kk : Nat) (hkk : kk ∈ weakScalingKK) :
    NN kk * NN kk / MM kk = 2500 ∧ NN kk * NN kk % MM kk = 0 ∧
    MM kk = (2 ^ kk) ^ 2 ∧ NN kk = 2 ^ kk * 50 ∧
    NN kk * NN kk = MM kk * (50 * 50) ∧
    weakScalingRuns = [(1, 50, 50), (4, 100, 100), (16, 200, 200), (64, 400, 400)] := by
  simp only [weakScalingKK, List.mem_cons, List.mem_singleton, List.mem_nil_iff, or_false] at hkk
  rcases hkk with rfl | rfl | rfl | rfl <;> decide

/-- C6 at `kk = 3`, the largest run. -/
theorem weak_scaling_work_witness :
    3 ∈ weakScalingKK ∧
    (NN 3 * NN 3 / MM 3 = 2500 ∧ NN 3 * NN 3 % MM 3 = 0 ∧
     MM 3 = (2 ^ 3) ^ 2 ∧ NN 3 = 2 ^ 3 * 50 ∧
     NN 3 * NN 3 = MM 3 * (50 * 50) ∧
     weakScalingRuns = [(1, 50, 50), (4, 100, 100), (16, 200, 200), (64, 400, 400)]) :=
  ⟨by decide, weak_scaling_work 3 (by decide)⟩

/-! ## Consecutive events -/

theorem isRun_at {σ : Type} (P : Petsc σ) (s : σ) (t : List (Event σ)) (k : Nat) (e : Event σ)
    (h : IsRun P s t) (hk : t[k]? = some e) : P e.call e.before = (e.resp, e.after) := by
  induction t generalizing s k with
  | nil => exact nomatch hk
  | cons a rest ih =>
    cases k with
    | zero =>
      rw [List.getElem?_cons_zero] at hk
      cases hk
      rw [h.1]
      exact h.2.1
    | succ k =>
      rw [List.getElem?_cons_succ] at hk
      exact ih a.after k h.2.2 hk

theorem isRun_first {σ : Type} (P : Petsc σ) (s : σ) (t : List (Event σ)) (e : Event σ)
    (h : IsRun P s t) (hk : t[0]? = some e) : e.before = s := by
  cases t with
  | nil => exact nomatch hk
  | cons a rest =>
    rw [List.getElem?_cons_zero] at hk
    cases hk
    exact h.1

theorem isRun_next {σ : Type} (P : Petsc σ) (s : σ) (t : List (Event σ)) (k : Nat)
    (e e1 : Event σ) (h : IsRun P s t) (hk : t[k]? = some e) (hk1 : t[k + 1]? = some e1) :
    e1.before = e.after := by
  induction t generalizing s k with
  | nil => exact nomatch hk
  | cons a rest ih =>
    rw [List.getElem?_cons_succ] at hk1
    cases k with
    | zero =>
      rw [List.getElem?_cons_zero] at hk
      cases hk
      exact isRun_first P _ rest e1 h.2.2 hk1
    | succ k =>
      rw [List.getElem?_cons_succ] at hk
      exact ih a.after k h.2.2 hk hk1

theorem RunSpec.exists_next {σ : Type} {P : Petsc σ} {args : List String} {s : σ}
    {r : PetscErrorCode} {sf : σ} {t : List (Event σ)} (h : RunSpec P args s r sf t)
    (k : Nat) (e : Event σ) (hk : t[k]? = some e) (hk32 : k < 32)
    (hok : e.call.checked = true → e.resp.ierr = 0) : ∃ e1, t[k + 1]? = some e1 := by
  have hlt : k < t.length := by
    by_contra hge
    rw [List.getElem?_eq_none (by omega)] at hk
    exact nomatch hk
  by_cases hlen : k + 1 < t.length
  · exact ⟨t[k + 1], List.getElem?_eq_getElem hlen⟩
  · exfalso
    have hl : t.length = k + 1 := by omega
    have hr : r ≠ 0 := by
      intro hr
      have := (h.success hr).1
      omega
    obtain ⟨e2, he2, hc2, hi2⟩ := h.failure hr
    rw [List.getLast?_eq_getElem?, hl, Nat.add_sub_cancel, hk] at he2
    cases he2
    exact hr (hi2 ▸ hok hc2)

theorem RunSpec.exists_one {σ : Type} {P : Petsc σ} {args : List String} {s : σ}
    {r : PetscErrorCode} {sf : σ} {t : List (Event σ)} (h : RunSpec P args s r sf t) :
    ∃ e, t[1]? = some e ∧
      e.call = .DMDACreate2d .PETSC_COMM_WORLD .DM_BOUNDARY_NONE .DM_BOUNDARY_NONE
        .DMDA_STENCIL_STAR (-9) (-9) PETSC_DECIDE PETSC_DECIDE 1 1 none none := by
  have hl : 2 ≤ t.length := by
    by_cases hr : r = 0
    · have := (h.success hr).1
      omega
    · exact (h.length_of_failure hr).1
  refine ⟨t[1], List.getElem?_eq_getElem (by omega), ?_⟩
  have h1 := h.call_at 1 t[1] (List.getElem?_eq_getElem (by omega))
  exact (Option.some.inj h1).symm

theorem routines_create : ∀ k, k < 33 → routines[k]? = some Routine.DMDACreate2d → k = 1 := by
  decide

/-! ## C4: the stencil -/

theorem star_offsets : stencilOffsets .DMDA_STENCIL_STAR 1 = [(-1, 0), (0, 0), (1, 0), (0, -1), (0, 1)] := by
  decide

theorem reach_none_in (m i : Int) (h0 : 0 ≤ i) (h1 : i < m) :
    reach .DM_BOUNDARY_NONE m i = some i := by
  simp [reach, h0, h1]

theorem star_interior (mx my i j : Int) (hi0 : 0 < i) (hi1 : i < mx - 1) (hj0 : 0 < j)
    (hj1 : j < my - 1) :
    stencilNeighbourhood .DM_BOUNDARY_NONE .DM_BOUNDARY_NONE .DMDA_STENCIL_STAR 1 mx my i j
      = [(i - 1, j), (i, j), (i + 1, j), (i, j - 1), (i, j + 1)] := by
  unfold stencilNeighbourhood
  rw [star_offsets]
  simp only [List.filterMap_cons, List.filterMap_nil, add_zero]
  rw [reach_none_in mx (i + -1) (by omega) (by omega), reach_none_in mx i (by omega) (by omega),
    reach_none_in mx (i + 1) (by omega) (by omega), reach_none_in my j (by omega) (by omega),
    reach_none_in my (j + -1) (by omega) (by omega), reach_none_in my (j + 1) (by omega) (by omega)]
  rfl

theorem reach_none_some (m i a : Int) (h : reach .DM_BOUNDARY_NONE m i = some a) :
    a = i ∧ 0 ≤ i ∧ i < m := by
  simp only [reach] at h
  rw [if_neg (by decide)] at h
  split at h
  · rename_i hh
    exact ⟨(Option.some.inj h).symm, hh⟩
  · exact nomatch h

theorem star_in_grid (mx my i j : Int) (p : Int × Int)
    (hp : p ∈ stencilNeighbourhood .DM_BOUNDARY_NONE .DM_BOUNDARY_NONE .DMDA_STENCIL_STAR 1
      mx my i j) :
    (0 ≤ p.1 ∧ p.1 < mx ∧ 0 ≤ p.2 ∧ p.2 < my) ∧
      (p = (i, j) ∨ p = (i - 1, j) ∨ p = (i + 1, j) ∨ p = (i, j - 1) ∨ p = (i, j + 1)) := by
  unfold stencilNeighbourhood at hp
  rw [star_offsets, List.mem_filterMap] at hp
  obtain ⟨d, hd, hm⟩ := hp
  split at hm
  · rename_i a b ha hb
    obtain ⟨rfl, h1, h2⟩ := reach_none_some _ _ _ ha
    obtain ⟨rfl, h3, h4⟩ := reach_none_some _ _ _ hb
    have hpe := (Option.some.inj hm).symm
    subst hpe
    refine ⟨⟨h1, h2, h3, h4⟩, ?_⟩
    simp only [List.mem_cons, List.mem_singleton, List.mem_nil_iff, or_false] at hd
    rcases hd with rfl | rfl | rfl | rfl | rfl <;> simp <;> omega
  · exact nomatch hm

/-- C4: in every run the second call is `DMDACreate2d` with boundary type
`DM_BOUNDARY_NONE` in both directions, `DMDA_STENCIL_STAR`, one degree of
freedom and stencil width 1, and it is the only `DMDACreate2d` call.  For a
grid made with these arguments the stencil of an interior node `(i,j)` is the
five points `(i,j)`, `(i-1,j)`, `(i+1,j)`, `(i,j-1)`, `(i,j+1)` and nothing
else; at any node every stencil point is a grid node and one of these five, so
there is no diagonal neighbour and no wrap-around (node (4,4) and the corner
node (0,8) of the 9 x 9 grid are worked out). -/
theorem main_stencil {σ : Type} (P : Petsc σ) (args : List String) (s : σ) :
    (∃ e, (trace P args s)[1]? = some e ∧
      e.call = .DMDACreate2d .PETSC_COMM_WORLD .DM_BOUNDARY_NONE .DM_BOUNDARY_NONE
        .DMDA_STENCIL_STAR (-9) (-9) PETSC_DECIDE PETSC_DECIDE 1 1 none none) ∧
    (∀ e ∈ trace P args s, ∀ comm bx by_ st M N m n dof sw lx ly,
      e.call = .DMDACreate2d comm bx by_ st M N m n dof sw lx ly →
      (trace P args s)[1]? = some e ∧
      bx = .DM_BOUNDARY_NONE ∧ by_ = .DM_BOUNDARY_NONE ∧ st = .DMDA_STENCIL_STAR ∧
      dof = 1 ∧ sw = 1 ∧
      (∀ mx my i j : Int, 0 < i → i < mx - 1 → 0 < j → j < my - 1 →
        ∀ p, p ∈ stencilNeighbourhood bx by_ st sw mx my i j ↔
          (p = (i, j) ∨ p = (i - 1, j) ∨ p = (i + 1, j) ∨ p = (i, j - 1) ∨ p = (i, j + 1))) ∧
      (∀ mx my i j : Int, ∀ p ∈ stencilNeighbourhood bx by_ st sw mx my i j,
        (0 ≤ p.1 ∧ p.1 < mx ∧ 0 ≤ p.2 ∧ p.2 < my) ∧
        (p = (i, j) ∨ p = (i - 1, j) ∨ p = (i + 1, j) ∨ p = (i, j - 1) ∨ p = (i, j + 1)))) ∧
    stencilNeighbourhood .DM_BOUNDARY_NONE .DM_BOUNDARY_NONE .DMDA_STENCIL_STAR 1 9 9 4 4
      = [(3, 4), (4, 4), (5, 4), (4, 3), (4, 5)] ∧
    stencilNeighbourhood .DM_BOUNDARY_NONE .DM_BOUNDARY_NONE .DMDA_STENCIL_STAR 1 9 9 0 8
      = [(0, 8), (1, 8), (0, 7)] := by
  have h := main_spec P args s
  refine ⟨h.exists_one, ?_, by decide, by decide⟩
  intro e he comm bx by_ st M N m n dof sw lx ly hcall
  obtain ⟨k, hk⟩ := List.getElem?_of_mem he
  have hr := h.routine_at k e hk
  rw [hcall] at hr
  have hk1 : k = 1 := routines_create k (h.index_lt k e hk) hr
  subst hk1
  have hc := h.call_at 1 e hk
  rw [hcall] at hc
  have hc2 : some (Call.DMDACreate2d .PETSC_COMM_WORLD .DM_BOUNDARY_NONE .DM_BOUNDARY_NONE
      .DMDA_STENCIL_STAR (-9) (-9) PETSC_DECIDE PETSC_DECIDE 1 1 none none)
      = some (Call.DMDACreate2d comm bx by_ st M N m n dof sw lx ly) := hc
  have hinj := Option.some.inj hc2
  injection hinj with _ hbx hby hst _ _ _ _ hdof hsw _ _
  subst hbx hby hst hdof hsw
  refine ⟨hk, rfl, rfl, rfl, rfl, rfl, ?_, ?_⟩
  · intro mx my i j hi0 hi1 hj0 hj1 p
    rw [star_interior mx my i j hi0 hi1 hj0 hj1]
    simp only [List.mem_cons, List.mem_singleton, List.mem_nil_iff, or_false]
    tauto
  · intro mx my i j p hp
    exact star_in_grid mx my i j p hp

/-- C4 at a concrete run: the library in which every call succeeds. -/
theorem main_stencil_witness :
    ∃ e, (trace okPetsc [] ())[1]? = some e ∧
      e.call = .DMDACreate2d .PETSC_COMM_WORLD .DM_BOUNDARY_NONE .DM_BOUNDARY_NONE
        .DMDA_STENCIL_STAR (-9) (-9) PETSC_DECIDE PETSC_DECIDE 1 1 none none :=
  (main_stencil okPetsc [] ()).1

/-! ## C7: uniform coordinates -/

theorem uniformSpacing_unit (m : Int) (hm : 2 ≤ m) :
    uniformSpacing .DM_BOUNDARY_NONE 0 1 m = some (1 / ((m : ℚ) - 1)) := by
  unfold uniformSpacing
  rw [if_neg (by decide), if_neg (show ¬ (m - 1 = 0) by omega), sub_zero]

theorem uniformSpacing_isSome (m : Int) (hm : 1 ≤ m) :
    (uniformSpacing .DM_BOUNDARY_NONE 0 1 m).isSome = true ↔ 2 ≤ m := by
  unfold uniformSpacing
  rw [if_neg (by decide)]
  by_cases h : m - 1 = 0
  · rw [if_pos h]
    simp only [Option.isSome_none, Bool.false_eq_true, false_iff]
    omega
  · rw [if_neg h]
    simp only [Option.isSome_some, true_iff]
    omega

theorem uniformCoordinate_unit (m i : Int) (hm : 2 ≤ m) :
    uniformCoordinate .DM_BOUNDARY_NONE 0 1 m i = some ((i : ℚ) / ((m : ℚ) - 1)) := by
  unfold uniformCoordinate
  rw [uniformSpacing_unit m hm, Option.map_some', zero_add, one_div, mul_comm]
  rfl

/-- C7: once `DMDACreate2d` has returned 0, the very next call of `main` is
`DMDASetUniformCoordinates(da,0.0,1.0,0.0,1.0,-1.0,-1.0)` on the grid just
made (created with `DM_BOUNDARY_NONE` in both directions), in the state that
call left, whatever size the grid has: nothing is checked in between.  In a
non-periodic direction with `m >= 2` nodes the routine puts node `i` at
`i/(m-1)`, so node 0 is at 0, node `m-1` is at 1 and the spacing is `1/(m-1)`,
which is `1/8` for 9 nodes; with at least one node the spacing is defined
exactly when `m >= 2`, and for `m = 1` it is a division by zero. -/
theorem main_uniform_coordinates {σ : Type} (P : Petsc σ) (args : List String) (s : σ) :
    (∀ e1, (trace P args s)[1]? = some e1 → e1.resp.ierr = 0 →
      e1.call = .DMDACreate2d .PETSC_COMM_WORLD .DM_BOUNDARY_NONE .DM_BOUNDARY_NONE
        .DMDA_STENCIL_STAR (-9) (-9) PETSC_DECIDE PETSC_DECIDE 1 1 none none ∧
      ∃ e2, (trace P args s)[2]? = some e2 ∧
        e2.call = .DMDASetUniformCoordinates e1.resp.obj 0 1 0 1 (-1) (-1) ∧
        e2.before = e1.after) ∧
    (∀ m i : PetscInt, 2 ≤ m →
      uniformCoordinate .DM_BOUNDARY_NONE 0 1 m i = some ((i : ℚ) / ((m : ℚ) - 1)) ∧
      uniformCoordinate .DM_BOUNDARY_NONE 0 1 m 0 = some 0 ∧
      uniformCoordinate .DM_BOUNDARY_NONE 0 1 m (m - 1) = some 1 ∧
      uniformSpacing .DM_BOUNDARY_NONE 0 1 m = some (1 / ((m : ℚ) - 1))) ∧
    uniformSpacing .DM_BOUNDARY_NONE 0 1 9 = some (1 / 8) ∧
    (∀ m : PetscInt, 1 ≤ m →
      ((uniformSpacing .DM_BOUNDARY_NONE 0 1 m).isSome = true ↔ 2 ≤ m)) ∧
    uniformSpacing .DM_BOUNDARY_NONE 0 1 1 = none := by
  have h := main_spec P args s
  refine ⟨?_, ?_, ?_, uniformSpacing_isSome, ?_⟩
  · intro e1 he1 hok
    obtain ⟨e, he, hcall⟩ := h.exists_one
    rw [he1] at he
    cases he
    refine ⟨hcall, ?_⟩
    obtain ⟨e2, he2⟩ := h.exists_next 1 e1 he1 (by decide) (fun _ => hok)
    have hc := h.call_at 2 e2 he2
    rw [← respOf_eq _ 1 e1 he1]
    exact ⟨e2, he2, (Option.some.inj hc).symm, isRun_next P s _ 1 e1 e2 h.isRun he1 he2⟩
  · intro m i hm
    have hne : ((m : ℚ) - 1) ≠ 0 := by
      have : (2 : ℚ) ≤ (m : ℚ) := by exact_mod_cast hm
      intro h0
      linarith
    refine ⟨uniformCoordinate_unit m i hm, ?_, ?_, uniformSpacing_unit m hm⟩
    · rw [uniformCoordinate_unit m 0 hm]
      simp
    · rw [uniformCoordinate_unit m (m - 1) hm]
      push_cast
      rw [div_self hne]
  · rw [uniformSpacing_unit 9 (by decide)]
    norm_num
  · unfold uniformSpacing
    rw [if_neg (by decide), if_pos (by decide)]

/-- C7 at a concrete run and grid: the third call of the library in which every
call succeeds, and the spacing for 9 nodes. -/
theorem main_uniform_coordinates_witness :
    ((trace okPetsc [] ())[2]?).map Event.call
      = some (.DMDASetUniformCoordinates 0 0 1 0 1 (-1) (-1)) ∧
    uniformSpacing .DM_BOUNDARY_NONE 0 1 9 = some (1 / 8) :=
  ⟨rfl, (main_uniform_coordinates okPetsc [] ()).2.2.1⟩

/-! ## C1: the reported error norm -/

theorem vaxpy_neg_one (x y : List PetscScalar) : vaxpy (-1) x y = vsub y x := by
  unfold vaxpy vsub
  induction x generalizing y with
  | nil => cases y <;> rfl
  | cons a x ih =>
    cases y with
    | nil => rfl
    | cons b y =>
      simp only [List.zipWith_cons_cons, ih y]
      congr 1
      ring

theorem isRun_frame {σ α : Type} (obs : σ → α) (P : Petsc σ) (s : σ) (t : List (Event σ))
    (h : IsRun P s t) (i n : Nat) (ei ej : Event σ) (hi : t[i]? = some ei)
    (hj : t[i + n]? = some ej)
    (hpres : ∀ k e, i < k → k ≤ i + n → t[k]? = some e → obs e.after = obs e.before) :
    obs ej.after = obs ei.after := by
  induction n generalizing ej with
  | zero =>
    rw [Nat.add_zero, hi] at hj
    cases hj
    rfl
  | succ n ih =>
    have hlt : i + n < t.length := by
      by_contra hge
      rw [List.getElem?_eq_none (by omega)] at hj
      exact nomatch hj
    have hm : t[i + n]? = some t[i + n] := List.getElem?_eq_getElem hlt
    have h1 := ih t[i + n] hm (fun k e hk1 hk2 => hpres k e hk1 (by omega))
    have h2 := isRun_next P s t (i + n) _ ej h hm hj
    rw [hpres (i + n + 1) ej (by omega) (le_refl _) hj, h2, h1]

theorem freshHandle_not_mem (l : List Nat) : freshHandle l ∉ l := by
  have hle : ∀ x ∈ l, x ≤ l.foldr max 0 := by
    induction l with
    | nil => intro x hx; exact nomatch hx
    | cons a l ih =>
      intro x hx
      rcases List.mem_cons.1 hx with rfl | hx
      · exact le_max_left _ _
      · exact le_trans (ih x hx) (le_max_right _ _)
  intro hmem
  have := hle _ hmem
  unfold freshHandle at this
  omega

theorem demo_vecLaws : VecLaws demoPetsc demoVecOf demoIsVec where
  frame := by
    intro c s v h
    cases c <;> simp_all [demoPetsc, Call.mayWriteVec, demoVecOf] <;> 
      (intro h2; exact absurd h2.symm h)
  axpy := by
    intro y a x s _
    simp [demoPetsc, demoVecOf]
  norm := by
    intro x s _
    simp [demoPetsc, demoVecOf]
  fresh := by
    intro c s hc _
    cases c <;> simp_all [demoPetsc, Call.createsVec, demoIsVec, freshHandle_not_mem]
  keep := by
    intro c s v h1 h2 hv
    cases c <;> simp_all [demoPetsc, Call.routine, demoIsVec]


theorem printed_iff_routine (c : Call) : c.printed ≠ none ↔ c.routine = Routine.PetscPrintf := by
  cases c <;> simp [Call.printed, Call.routine]

theorem printfText_report (mx my : PetscInt) (v : PetscReal) :
    printfText reportFormat [mx, my] [v] = "on " ++ toString mx ++ " x " ++ toString my ++
      " grid:  error |u-uexact|_inf = " ++ fmtG v ++ "\n" := by
  apply String.ext
  simp only [String.data_append, List.append_assoc]
  rfl

theorem fmtG_examples :
    fmtG 0 = "0" ∧ fmtG (5 / 4) = "1.25" ∧ fmtG (1 / 4096) = "0.000244141" ∧
    fmtG (1 / 3) = "0.333333" ∧ fmtG 1000000 = "1e+06" ∧ fmtG (1 / 100000) = "1e-05" := by
  refine ⟨?_, ?_, ?_, ?_, ?_, ?_⟩ <;> unfold fmtG
  · decide
  · rw [show ((5 : ℚ) / 4).num = 5 by norm_num, show ((5 : ℚ) / 4).den = 4 by norm_num]
    decide
  · rw [show ((1 : ℚ) / 4096).num = 1 by norm_num, show ((1 : ℚ) / 4096).den = 4096 by norm_num]
    decide
  · rw [show ((1 : ℚ) / 3).num = 1 by norm_num, show ((1 : ℚ) / 3).den = 3 by norm_num]
    decide
  · rw [show ((1000000 : ℚ)).num = 1000000 by norm_num, show ((1000000 : ℚ)).den = 1 by norm_num]
    decide
  · rw [show ((1 : ℚ) / 100000).num = 1 by norm_num,
      show ((1 : ℚ) / 100000).den = 100000 by norm_num]
    decide

theorem routines_report_positions : ∀ k, k < 33 → ∀ x, routines[k]? = some x →
    ((x = Routine.PetscPrintf ↔ k = 25) ∧ (x = Routine.formExact ↔ k = 9) ∧
     (x = Routine.KSPSolve ↔ k = 20) ∧ (x = Routine.VecAXPY ↔ k = 22) ∧
     (x = Routine.VecNorm ↔ k = 23)) := by
  intro k hk
  interval_cases k <;> (intro x hx; cases hx; decide)

theorem script_no_write (args : List String) (r : Nat → Resp) (v : Vec)
    (h6 : (r 6).obj ≠ v) (h7 : (r 7).obj ≠ v) (k : Nat) (hk1 : 9 < k) (hk2 : k ≤ 21) (c : Call)
    (hc : (script args r)[k]? = some c) : c.mayWriteVec v = false := by
  interval_cases k <;>
    (have hc2 : some _ = some c := hc
     rw [← Option.some.inj hc2]
     simp [script, Call.mayWriteVec, h6, h7])

/-- C1: on a run that returns 0, against a library that keeps `VecLaws`, there
is exactly one `PetscPrintf` call, and the number it prints is the infinity
norm of `u - uexact`, where `u` holds what the one `KSPSolve(ksp,b,u)` call
left in it and `uexact` what the one `formExact(da,uexact)` call left in it:
`main` calls `VecAXPY(u,-1.0,uexact)`, then `VecNorm(u,NORM_INFINITY,&errnorm)`,
and prints `errnorm`. -/
theorem main_reports_error_norm {σ : Type} (P : Petsc σ)
    (vecOf : σ → Vec → List PetscScalar) (isVec : σ → Vec → Bool)
    (args : List String) (s : σ) (laws : VecLaws P vecOf isVec)
    (hret : ret P args s = 0) : ReportsErrorNorm vecOf (trace P args s) := by
  have h := main_spec P args s
  rw [hret] at h
  obtain ⟨e6, he6⟩ := h.exists_at 6 (by decide)
  obtain ⟨e7, he7⟩ := h.exists_at 7 (by decide)
  obtain ⟨e8, he8⟩ := h.exists_at 8 (by decide)
  obtain ⟨e9, he9⟩ := h.exists_at 9 (by decide)
  obtain ⟨e20, he20⟩ := h.exists_at 20 (by decide)
  obtain ⟨e21, he21⟩ := h.exists_at 21 (by decide)
  obtain ⟨e22, he22⟩ := h.exists_at 22 (by decide)
  obtain ⟨e23, he23⟩ := h.exists_at 23 (by decide)
  obtain ⟨e25, he25⟩ := h.exists_at 25 (by decide)
  have c6 : some (Call.DMCreateGlobalVector _) = some e6.call := h.call_at 6 e6 he6
  have c7 : some (Call.VecDuplicate _) = some e7.call := h.call_at 7 e7 he7
  have c8 : some (Call.VecDuplicate _) = some e8.call := h.call_at 8 e8 he8
  have c9 : some (Call.formExact _ _) = some e9.call := h.call_at 9 e9 he9
  have c20 : some (Call.KSPSolve _ _ _) = some e20.call := h.call_at 20 e20 he20
  have c21 : some Call.PetscLogStagePop = some e21.call := h.call_at 21 e21 he21
  have c22 : some (Call.VecAXPY _ _ _) = some e22.call := h.call_at 22 e22 he22
  have c23 : some (Call.VecNorm _ _) = some e23.call := h.call_at 23 e23 he23
  have c25 : some (Call.PetscPrintf _ _ _ _ _) = some e25.call := h.call_at 25 e25 he25
  have c6 := (Option.some.inj c6).symm
  have c7 := (Option.some.inj c7).symm
  have c8 := (Option.some.inj c8).symm
  have c9 := (Option.some.inj c9).symm
  have c20 := (Option.some.inj c20).symm
  have c21 := (Option.some.inj c21).symm
  have c22 := (Option.some.inj c22).symm
  have c23 := (Option.some.inj c23).symm
  have c25 := (Option.some.inj c25).symm
  have p6 := isRun_at P s _ 6 e6 h.isRun he6
  have p7 := isRun_at P s _ 7 e7 h.isRun he7
  have p8 := isRun_at P s _ 8 e8 h.isRun he8
  have p21 := isRun_at P s _ 21 e21 h.isRun he21
  have p22 := isRun_at P s _ 22 e22 h.isRun he22
  have p23 := isRun_at P s _ 23 e23 h.isRun he23
  have n7 := isRun_next P s _ 6 e6 e7 h.isRun he6 he7
  have n8 := isRun_next P s _ 7 e7 e8 h.isRun he7 he8
  have n21 := isRun_next P s _ 20 e20 e21 h.isRun he20 he21
  have n22 := isRun_next P s _ 21 e21 e22 h.isRun he21 he22
  have n23 := isRun_next P s _ 22 e22 e23 h.isRun he22 he23
  have r6 := respOf_eq _ 6 e6 he6
  have r7 := respOf_eq _ 7 e7 he7
  have r8 := respOf_eq _ 8 e8 he8
  have r23 := respOf_eq _ 23 e23 he23
  rw [r6] at c7 c8 c20
  rw [r7] at c20 c22 c23
  rw [r8] at c9 c22
  rw [r23] at c25
  have ok6 := h.ok_at 6 e6 he6 (by rw [c6]; rfl)
  have ok7 := h.ok_at 7 e7 he7 (by rw [c7]; rfl)
  have ok8 := h.ok_at 8 e8 he8 (by rw [c8]; rfl)
  have ok22 := h.ok_at 22 e22 he22 (by rw [c22]; rfl)
  have ok23 := h.ok_at 23 e23 he23 (by rw [c23]; rfl)
  -- the three vector handles are different
  have f6 := laws.fresh e6.call e6.before (by rw [c6]; rfl) (by rw [p6]; exact ok6)
  have f7 := laws.fresh e7.call e7.before (by rw [c7]; rfl) (by rw [p7]; exact ok7)
  have f8 := laws.fresh e8.call e8.before (by rw [c8]; rfl) (by rw [p8]; exact ok8)
  rw [p6] at f6
  rw [p7, n7] at f7
  rw [p8, n8] at f8
  have k7 := laws.keep e7.call e7.before e6.resp.obj (by rw [c7]; simp [Call.routine])
    (by rw [c7]; simp [Call.routine]) (by rw [n7]; exact f6.2)
  rw [p7] at k7
  have hub : e6.resp.obj ≠ e8.resp.obj := by
    intro heq
    have h1 : isVec e7.after e8.resp.obj = true := heq ▸ k7
    rw [f8.1] at h1
    exact nomatch h1
  have huu : e7.resp.obj ≠ e8.resp.obj := by
    intro heq
    have h1 : isVec e7.after e8.resp.obj = true := heq ▸ f7.2
    rw [f8.1] at h1
    exact nomatch h1
  -- `uexact` is not written between `formExact` and `VecAXPY`
  have frameE : vecOf e21.after e8.resp.obj = vecOf e9.after e8.resp.obj := by
    refine isRun_frame (fun st => vecOf st e8.resp.obj) P s _ h.isRun 9 12 e9 e21 he9 he21 ?_
    intro k e hk1 hk2 hk
    have pk := isRun_at P s _ k e h.isRun hk
    have hw := script_no_write args _ e8.resp.obj (by rw [r6]; exact hub) (by rw [r7]; exact huu)
      k hk1 hk2 e.call (h.call_at k e hk)
    have := laws.frame e.call e.before e8.resp.obj hw
    rw [pk] at this
    exact this
  -- `u` is not written between `KSPSolve` and `VecAXPY`
  have frameU : vecOf e21.after e7.resp.obj = vecOf e20.after e7.resp.obj := by
    have := laws.frame e21.call e21.before e7.resp.obj (by rw [c21]; rfl)
    rw [p21, n21] at this
    exact this
  have hax : vecOf e22.after e7.resp.obj
      = vaxpy (-1) (vecOf e21.after e8.resp.obj) (vecOf e21.after e7.resp.obj) := by
    have := laws.axpy e7.resp.obj (-1) e8.resp.obj e22.before
    rw [← c22, p22, n22] at this
    exact this ok22
  have hno : e23.resp.norm = normInf (vecOf e22.after e7.resp.obj) := by
    have := laws.norm e7.resp.obj e23.before
    rw [← c23, p23, n23] at this
    exact this ok23
  rw [hax, vaxpy_neg_one, frameE, frameU] at hno
  refine ⟨e9, e20, e22, e23, e25, _, _, _, _, _, _, _, he9, c9, he20, c20, he22, c22, he23, c23,
    he25, c25, ?_, hno, ?_⟩
  · rw [c25]
    exact congrArg some (printfText_report _ _ _)
  · intro k e hk
    have hpos := routines_report_positions k (h.index_lt k e hk) _ (h.routine_at k e hk)
    exact ⟨(printed_iff_routine e.call).trans hpos.1, hpos⟩

theorem demo_norm_value :
    normInf (vsub ((List.replicate 4 (1 : ℚ)).map (· / 4))
      ((List.range 4).map fun k => (k : ℚ) / 2)) = 5 / 4 := by
  simp only [normInf, vsub, List.replicate, List.map, List.range, List.range.loop,
    List.zipWith, List.foldr]
  norm_num [abs_of_nonneg, abs_of_neg, max_def]

set_option maxRecDepth 100000 in
theorem demo_report_call :
    ((trace demoPetsc ["./poisson", "-da_grid_x", "2", "-da_grid_y", "2"] demoInit)[25]?).map
      Event.call
    = some (.PetscPrintf .PETSC_COMM_WORLD reportFormat 2 2
        (normInf (vaxpy (-1) ((List.range 4).map fun k => (k : ℚ) / 2)
          ((List.replicate 4 (1 : ℚ)).map (· / 4))))) := by
  rfl

/-- The small library on a 2 x 2 grid: `uexact` is 0, 1/2, 1, 3/2, the solve
leaves 1/4 in every entry of `u`, and the report call prints the norm 5/4. -/
theorem demo_report_value :
    ((trace demoPetsc ["./poisson", "-da_grid_x", "2", "-da_grid_y", "2"] demoInit)[25]?).map
      Event.call
    = some (.PetscPrintf .PETSC_COMM_WORLD reportFormat 2 2 (5 / 4)) := by
  rw [demo_report_call, vaxpy_neg_one, demo_norm_value]

/-- The line the small library's run on a 2 x 2 grid writes. -/
theorem demo_report_line :
    ((trace demoPetsc ["./poisson", "-da_grid_x", "2", "-da_grid_y", "2"] demoInit)[25]?).bind
      (fun e => e.call.printed) = some "on 2 x 2 grid:  error |u-uexact|_inf = 1.25\n" := by
  have h := demo_report_value
  cases hk : (trace demoPetsc ["./poisson", "-da_grid_x", "2", "-da_grid_y", "2"] demoInit)[25]? with
  | none => rw [hk] at h; exact nomatch h
  | some e =>
    rw [hk] at h
    have hc : e.call = .PetscPrintf .PETSC_COMM_WORLD reportFormat 2 2 (5 / 4) :=
      Option.some.inj h
    show e.call.printed = _
    rw [hc]
    show some (printfText reportFormat [2, 2] [5 / 4]) = _
    rw [printfText_report, fmtG_examples.2.1]
    decide

/-- C1 at a concrete run: the small library on a 2 x 2 grid, where the report
call gets the norm 5/4 and writes "on 2 x 2 grid:  error |u-uexact|_inf = 1.25". -/
theorem main_reports_error_norm_witness :
    VecLaws demoPetsc demoVecOf demoIsVec ∧
    ret demoPetsc ["./poisson", "-da_grid_x", "2", "-da_grid_y", "2"] demoInit = 0 ∧
    ((trace demoPetsc ["./poisson", "-da_grid_x", "2", "-da_grid_y", "2"] demoInit)[25]?).map
      Event.call = some (.PetscPrintf .PETSC_COMM_WORLD
        "on %d x %d grid:  error |u-uexact|_inf = %g\n" 2 2 (5 / 4)) ∧
    ((trace demoPetsc ["./poisson", "-da_grid_x", "2", "-da_grid_y", "2"] demoInit)[25]?).bind
      (fun e => e.call.printed) = some "on 2 x 2 grid:  error |u-uexact|_inf = 1.25\n" ∧
    fmtG (1 / 4096) = "0.000244141" ∧
    ReportsErrorNorm demoVecOf
      (trace demoPetsc ["./poisson", "-da_grid_x", "2", "-da_grid_y", "2"] demoInit) :=
  ⟨demo_vecLaws, rfl, demo_report_value, demo_report_line, fmtG_examples.2.2.1,
    main_reports_error_norm demoPetsc demoVecOf demoIsVec
      ["./poisson", "-da_grid_x", "2", "-da_grid_y", "2"] demoInit demo_vecLaws rfl⟩

/-! ## C2: the grid size -/

theorem demo_gridLaws : GridLaws demoPetsc demoOptionsOf demoGridOf where
  init := by
    intro args file hlp s
    rfl
  create := by
    intro comm bx by_ st M N m n dof sw lx ly s _
    rfl
  info := by
    intro da s _
    rfl
  frame := by
    intro c s da h1 _ _
    cases c <;> first | rfl | exact absurd rfl h1

theorem routines_keep_grid : ∀ k, 1 < k → k ≤ 23 → ∀ x, routines[k]? = some x →
    (x ≠ Routine.DMDACreate2d ∧ x ≠ Routine.DMDestroy ∧ x ≠ Routine.PetscFinalize) := by
  intro k hk1 hk2
  interval_cases k <;> (intro x hx; cases hx; decide)

theorem reportLine_default : reportLine 9 9 = "on 9 x 9 grid:  error |u-uexact|_inf = %g\n" := by
  decide

theorem reportLine_toList (M N : PetscInt) : (reportLine M N).toList =
    "on ".toList ++ ((toString M).toList ++ (" x ".toList ++ ((toString N).toList ++
      " grid:  error |u-uexact|_inf = %g\n".toList))) := by
  rfl

/-- C2: on a run that returns 0, against a library that keeps `GridLaws`,
`DMDACreate2d` is called with the size arguments -9, -9, so the grid has 9 x 9
points (81 unknowns) when the command line gives neither `-da_grid_x` nor
`-da_grid_y`, and `M` x `N` points when it gives `M` and `N`; the report call
prints the `mx`, `my` of that grid, and for 9, 9 the line reads
"on 9 x 9 grid: ...". -/
theorem main_reports_grid {σ : Type} (P : Petsc σ)
    (optionsOf : σ → List String) (gridOf : σ → DM → PetscInt × PetscInt)
    (args : List String) (s : σ) (laws : GridLaws P optionsOf gridOf)
    (hret : ret P args s = 0) :
    ReportsGrid gridOf args (trace P args s) ∧
    reportLine 9 9 = "on 9 x 9 grid:  error |u-uexact|_inf = %g\n" ∧
    (∀ M N : PetscInt, (reportLine M N).toList =
      "on ".toList ++ ((toString M).toList ++ (" x ".toList ++ ((toString N).toList ++
        " grid:  error |u-uexact|_inf = %g\n".toList)))) := by
  refine ⟨?_, reportLine_default, reportLine_toList⟩
  have h := main_spec P args s
  rw [hret] at h
  obtain ⟨e0, he0⟩ := h.exists_at 0 (by decide)
  obtain ⟨e1, he1⟩ := h.exists_at 1 (by decide)
  obtain ⟨e23, he23⟩ := h.exists_at 23 (by decide)
  obtain ⟨e24, he24⟩ := h.exists_at 24 (by decide)
  obtain ⟨e25, he25⟩ := h.exists_at 25 (by decide)
  have c0 : some (Call.PetscInitialize args none help) = some e0.call := h.call_at 0 e0 he0
  have c1 : some (Call.DMDACreate2d _ _ _ _ _ _ _ _ _ _ _ _) = some e1.call := h.call_at 1 e1 he1
  have c24 : some (Call.DMDAGetLocalInfo _) = some e24.call := h.call_at 24 e24 he24
  have c25 : some (Call.PetscPrintf _ _ _ _ _) = some e25.call := h.call_at 25 e25 he25
  have c0 := (Option.some.inj c0).symm
  have c1 := (Option.some.inj c1).symm
  have c24 := (Option.some.inj c24).symm
  have c25 := (Option.some.inj c25).symm
  have r1 := respOf_eq _ 1 e1 he1
  have r24 := respOf_eq _ 24 e24 he24
  rw [r1] at c24
  rw [r24] at c25
  have p0 := isRun_at P s _ 0 e0 h.isRun he0
  have p1 := isRun_at P s _ 1 e1 h.isRun he1
  have p24 := isRun_at P s _ 24 e24 h.isRun he24
  have b0 := isRun_first P s _ e0 h.isRun he0
  have n1 := isRun_next P s _ 0 e0 e1 h.isRun he0 he1
  have n24 := isRun_next P s _ 23 e23 e24 h.isRun he23 he24
  have ok1 := h.ok_at 1 e1 he1 (by rw [c1]; rfl)
  have ok24 := h.ok_at 24 e24 he24 (by rw [c24]; rfl)
  have hopt : optionsOf e0.after = args := by
    have := laws.init args none help e0.before
    rw [← c0, p0] at this
    exact this
  have hcreate : gridOf e1.after e1.resp.obj
      = (gridSize (-9) (optionInt args "-da_grid_x"),
         gridSize (-9) (optionInt args "-da_grid_y")) := by
    have := laws.create .PETSC_COMM_WORLD .DM_BOUNDARY_NONE .DM_BOUNDARY_NONE
      .DMDA_STENCIL_STAR (-9) (-9) PETSC_DECIDE PETSC_DECIDE 1 1 none none e1.before
    rw [← c1, p1, n1, hopt] at this
    exact this ok1
  have hframe : gridOf e23.after e1.resp.obj = gridOf e1.after e1.resp.obj := by
    refine isRun_frame (fun st => gridOf st e1.resp.obj) P s _ h.isRun 1 22 e1 e23 he1 he23 ?_
    intro k e hk1 hk2 hk
    have pk := isRun_at P s _ k e h.isRun hk
    have hr := routines_keep_grid k hk1 hk2 _ (h.routine_at k e hk)
    have := laws.frame e.call e.before e1.resp.obj hr.1 hr.2.1 hr.2.2
    rw [pk] at this
    exact this
  have hinfo : (e24.resp.info.mx, e24.resp.info.my)
      = (gridSize (-9) (optionInt args "-da_grid_x"),
         gridSize (-9) (optionInt args "-da_grid_y")) := by
    have := laws.info e1.resp.obj e24.before
    rw [← c24, p24, n24, hframe, hcreate] at this
    exact this ok24
  have hmx : e24.resp.info.mx = gridSize (-9) (optionInt args "-da_grid_x") :=
    congrArg Prod.fst hinfo
  have hmy : e24.resp.info.my = gridSize (-9) (optionInt args "-da_grid_y") :=
    congrArg Prod.snd hinfo
  rw [hmx, hmy] at c25
  refine ⟨e1, e24, e25, _, _, _, he1, c1, hcreate, he24, c24, ?_, he25, c25, rfl, rfl, ?_, ?_⟩
  · rw [← hmx, ← hmy]
  · intro hx hy
    rw [hx, hy]
    decide
  · intro M N hx hy
    rw [hx, hy]
    exact ⟨rfl, rfl⟩

/-- C2 at two concrete runs of the small library: with no option
`DMDAGetLocalInfo` reports 9 x 9; with `-da_grid_x 17 -da_grid_y 33` it reports
17 x 33 and the run is as the theorem says. -/
theorem main_reports_grid_witness :
    GridLaws demoPetsc demoOptionsOf demoGridOf ∧
    ret demoPetsc ["./poisson", "-da_grid_x", "17", "-da_grid_y", "33"] demoInit = 0 ∧
    optionInt ["./poisson", "-da_grid_x", "17", "-da_grid_y", "33"] "-da_grid_x" = some 17 ∧
    optionInt ["./poisson", "-da_grid_x", "17", "-da_grid_y", "33"] "-da_grid_y" = some 33 ∧
    ((trace demoPetsc ["./poisson", "-da_grid_x", "17", "-da_grid_y", "33"] demoInit)[24]?).map
      (fun e => e.resp.info) = some ⟨17, 33⟩ ∧
    ((trace demoPetsc [] demoInit)[24]?).map (fun e => e.resp.info) = some ⟨9, 9⟩ ∧
    (ReportsGrid demoGridOf ["./poisson", "-da_grid_x", "17", "-da_grid_y", "33"]
        (trace demoPetsc ["./poisson", "-da_grid_x", "17", "-da_grid_y", "33"] demoInit) ∧
      reportLine 9 9 = "on 9 x 9 grid:  error |u-uexact|_inf = %g\n" ∧
      (∀ M N : PetscInt, (reportLine M N).toList =
        "on ".toList ++ ((toString M).toList ++ (" x ".toList ++ ((toString N).toList ++
          " grid:  error |u-uexact|_inf = %g\n".toList))))) :=
  ⟨demo_gridLaws, rfl, by decide, by decide, by decide, by decide,
    main_reports_grid demoPetsc demoOptionsOf demoGridOf
      ["./poisson", "-da_grid_x", "17", "-da_grid_y", "33"] demoInit demo_gridLaws rfl⟩

end Poisson
